import Mathlib

/-!
Shallow embedding of `src/tinkoff_client/tinkoff_client.py` (TinkoffClient).

The broker API (`tinkoff.invest.Client`) is an external collaborator; it is
modelled by an `Env` record of pure functions describing the broker's answers,
and every wrapper method is translated into a function returning a `Res α`:
an `Except PyError α` result together with the list of network calls issued,
in order.  Python floats are modelled as exact rationals, `datetime` values as
integers (microseconds since the epoch, so `timedelta(days=1)` is `DAY`),
and pandas `DataFrame`s as a `Frame`: a column list plus a list of typed rows.
The pandas operations used by the source (`DataFrame(rows)`, column selection,
`drop_duplicates(subset=col)`, `sort_values(col)`) are modelled faithfully,
including the fact that `pd.DataFrame([])` has no columns at all, so that
selecting or sorting by a column of an empty row list raises `KeyError`.
-/

/-- Exact rational numbers modelling Python floats, kept normalized by the
smart constructor `qnorm` (every value the embedding computes goes through
it, so structural equality is value equality). -/
structure Q where
  num : Int
  den : Nat
deriving DecidableEq

/-- Normalize a fraction by the gcd of numerator and denominator. -/
def qnorm (n : Int) (d : Nat) : Q :=
  let g := Nat.gcd n.natAbs d
  ⟨n / (g : Int), d / g⟩

/-- An integer as a rational. -/
def qint (n : Int) : Q := ⟨n, 1⟩

/-- Zero. -/
def qzero : Q := ⟨0, 1⟩

/-- Addition. -/
def qadd (a b : Q) : Q := qnorm (a.num * b.den + b.num * a.den) (a.den * b.den)

/-- Negation. -/
def qneg (a : Q) : Q := ⟨-a.num, a.den⟩

/-- Subtraction. -/
def qsub (a b : Q) : Q := qadd a (qneg b)

/-- Multiplication. -/
def qmul (a b : Q) : Q := qnorm (a.num * b.num) (a.den * b.den)

/-- Division (division by zero, which the wrapped code always guards against,
yields the junk value `qzero`). -/
def qdiv (a b : Q) : Q :=
  if b.num = 0 then qzero
  else if b.num < 0 then qnorm (-(a.num * b.den)) (a.den * b.num.natAbs)
  else qnorm (a.num * b.den) (a.den * b.num.natAbs)

/-- Comparison `a <= b` (on positive-denominator values). -/
def qle (a b : Q) : Bool := a.num * b.den ≤ b.num * a.den

/-- Comparison `a < b` (on positive-denominator values). -/
def qlt (a b : Q) : Bool := a.num * b.den < b.num * a.den

/-- Fixed-point `Quotation` (units + nano) of the broker API. -/
structure Quotation where
  units : Int
  nano : Int
deriving DecidableEq

/-- Model of `quotation_to_decimal`: exact value of a quotation. -/
def Quotation.toQ (q : Quotation) : Q :=
  qadd (qint q.units) (qdiv (qint q.nano) (qint 1000000000))

/-- Model of `MoneyValue` of the broker API: a quotation together with a currency. -/
structure MoneyValue where
  currency : String
  units : Int
  nano : Int
deriving DecidableEq

/-- Exact value of a `MoneyValue` (`units + nano / 1e9`). -/
def MoneyValue.toQ (m : MoneyValue) : Q :=
  qadd (qint m.units) (qdiv (qint m.nano) (qint 1000000000))

/-- Model of `MarketDataService._money_to_float`: `float(m.units + m.nano / 1e9) if m else 0.0`. -/
def money_to_float (m : Option MoneyValue) : Q :=
  match m with
  | some mv => mv.toQ
  | none => qzero

/-- Model of `PortfolioService._quotation_to_float`: `0.0` for `None`, else the exact value. -/
def quotation_to_float (q : Option Quotation) : Q :=
  match q with
  | some qv => qv.toQ
  | none => qzero

/-- Python `str.upper()` (ASCII case mapping, as used on tickers and
currency codes). -/
def py_upper (s : String) : String := ⟨s.data.map Char.toUpper⟩

/-- Python `str.lower()` (ASCII case mapping, as used on instrument kinds). -/
def py_lower (s : String) : String := ⟨s.data.map Char.toLower⟩

/-- Model of `tinkoff.invest.CandleInterval` values used by `_INTERVAL_MAP`. -/
inductive CandleInterval where
  | min1 | min5 | min15 | hour | day | week | month
deriving DecidableEq

/-- Model of `tinkoff.invest.OrderDirection`. -/
inductive OrderDirection where
  | buy | sell
deriving DecidableEq

/-- Model of `tinkoff.invest.OrderType`. -/
inductive OrderType where
  | market | limit
deriving DecidableEq

/-- Model of `tinkoff.invest.StopOrderDirection`. -/
inductive StopOrderDirection where
  | buy | sell
deriving DecidableEq

/-- Model of `tinkoff.invest.StopOrderExpirationType`. -/
inductive StopOrderExpirationType where
  | goodTillCancel
deriving DecidableEq

/-- Model of `tinkoff.invest.StopOrderType`. -/
inductive StopOrderType where
  | stopLoss | takeProfit
deriving DecidableEq

/-- Model of `tinkoff.invest.InstrumentType` (the `instrument_kind` of a search result). -/
inductive InstrumentType where
  | share | bond | currency | etf | other
deriving DecidableEq

/-- Python exceptions that the wrapper can raise. -/
inductive PyError where
  | valueError (msg : String)
  | keyError (key : String)
  | unboundLocalError (varName : String)
  | indexError (msg : String)
  | typeError (msg : String)
  | attributeError (msg : String)
deriving DecidableEq

/-- One account as listed by `client.users.get_accounts()`. -/
structure BrokerAccount where
  id : String
  name : String
  openedDate : Option Int
deriving DecidableEq

/-- One position inside `client.operations.get_portfolio(...)`. -/
structure BrokerPosition where
  figi : String
  instrumentType : String
  quantity : Option Quotation
  averagePositionPrice : Option Quotation
  currentPrice : Option Quotation
  expectedYield : Option Quotation
deriving DecidableEq

/-- A portfolio snapshot returned by `client.operations.get_portfolio(...)`. -/
structure BrokerPortfolio where
  totalAmountPortfolio : MoneyValue
  positions : List BrokerPosition
deriving DecidableEq

/-- An instrument as returned by listings and `find_instrument`. -/
structure BrokerInstrument where
  figi : String
  ticker : String
  instrumentKind : InstrumentType
deriving DecidableEq

/-- A depth-1 order book snapshot (`get_order_book`). -/
structure BrokerOrderBook where
  lastPrice : Option Quotation
  bids : List Quotation
  asks : List Quotation
deriving DecidableEq

/-- One historic candle (`get_candles`); `openQ` .. `closeQ` are the
`open`/`high`/`low`/`close` quotations of the API response. -/
structure BrokerCandle where
  time : Int
  openQ : Quotation
  highQ : Quotation
  lowQ : Quotation
  closeQ : Quotation
  volume : Int
deriving DecidableEq

/-- One operation (`get_operations`). -/
structure BrokerOperation where
  date : Int
  operationTypeName : String
  figi : String
  quantity : Int
  price : Option Quotation
  payment : Option Quotation
deriving DecidableEq

/-- A bond instrument (`bond_by`). -/
structure BrokerBond where
  ticker : String
  name : String
  currency : String
  nominal : Option MoneyValue
  initialNominal : Option MoneyValue
  aciValue : Option MoneyValue
  couponQuantityPerYear : Int
  maturityDate : Option Int
  placementDate : Option Int
  floatingCouponFlag : Bool
  amortizationFlag : Bool
deriving DecidableEq

/-- One coupon event (`get_bond_coupons`). -/
structure BrokerCoupon where
  couponDate : Int
  payOneBond : Option MoneyValue
deriving DecidableEq

/-- One network request issued to the broker API. -/
inductive BrokerCall where
  | getAccounts
  | getPortfolio (accountId : String)
  | getShares
  | findInstrument (query : String)
  | getInstrumentBy (figi : String)
  | getOrderBook (figi : String) (depth : Int)
  | getCandles (figi : String) (fromT toT : Int) (interval : CandleInterval)
  | getLastPrices (figis : List String)
  | getOperations (accountId : String) (fromT toT : Int)
  | postOrder (figi : String) (quantity : Int) (accountId : String)
      (direction : OrderDirection) (orderType : OrderType) (price : Option Q)
  | postStopOrder (accountId figi : String) (quantity : Int)
      (stopPrice price : Q) (direction : StopOrderDirection)
      (expirationType : StopOrderExpirationType) (stopOrderType : StopOrderType)
  | getBondBy (figi : String)
  | getBondCoupons (figi : String)
deriving DecidableEq

/-- The external broker: what each API endpoint would answer. -/
structure Env where
  accounts : List BrokerAccount
  getPortfolio : String → BrokerPortfolio
  shares : List BrokerInstrument
  findInstrument : String → List BrokerInstrument
  instrumentBy : String → Option BrokerInstrument
  orderBook : String → BrokerOrderBook
  getCandles : String → Int → Int → CandleInterval → List BrokerCandle
  lastPriceOf : String → Quotation
  getOperations : String → Int → Int → List BrokerOperation
  postOrderId : String
  postStopOrderId : String
  bondBy : String → BrokerBond
  bondCoupons : String → List BrokerCoupon

instance {ε α : Type} [DecidableEq ε] [DecidableEq α] : DecidableEq (Except ε α) := by
  intro a b
  cases a <;> cases b <;>
    first
      | (apply isFalse; intro h; exact Except.noConfusion h)
      | (rename_i x y
         exact if h : x = y then isTrue (by rw [h]) else
           isFalse (fun hc => h (by injection hc)))

/-- Result of running a wrapper method: a Python result or exception together
with the ordered list of broker calls issued. -/
structure Res (α : Type) where
  result : Except PyError α
  trace : List BrokerCall
deriving DecidableEq

/-- Sequencing of effectful wrapper steps: an exception aborts, traces append. -/
def Res.bind {α β : Type} (x : Res α) (f : α → Res β) : Res β :=
  match x.result with
  | .error e => ⟨.error e, x.trace⟩
  | .ok a => ⟨(f a).result, x.trace ++ (f a).trace⟩

instance : Monad Res where
  pure a := ⟨.ok a, []⟩
  bind := Res.bind

/-- Model of `raise e`. -/
def throwPy {α : Type} (e : PyError) : Res α := ⟨.error e, []⟩

/-- Issue one broker call, whose answer `v` is read off the environment. -/
def brokerCall {α : Type} (c : BrokerCall) (v : α) : Res α := ⟨.ok v, [c]⟩

/-- Lift a pure, already-evaluated step (no network) into `Res`. -/
def ofExcept {α : Type} (x : Except PyError α) : Res α := ⟨x, []⟩

theorem Res.bind_eq {α β : Type} (x : Res α) (f : α → Res β) :
    x >>= f = Res.bind x f := rfl

theorem Res.pure_eq {α : Type} (a : α) : (pure a : Res α) = ⟨.ok a, []⟩ := rfl

theorem Res.bind_of_ok {α β : Type} (x : Res α) (f : α → Res β) (a : α)
    (h : x.result = .ok a) :
    Res.bind x f = ⟨(f a).result, x.trace ++ (f a).trace⟩ := by
  unfold Res.bind; rw [h]

theorem Res.bind_of_error {α β : Type} (x : Res α) (f : α → Res β) (e : PyError)
    (h : x.result = .error e) : Res.bind x f = ⟨.error e, x.trace⟩ := by
  unfold Res.bind; rw [h]

/-- A pandas `DataFrame` whose rows all have shape `ρ`: the column labels
actually attached to the frame, plus the row list. -/
structure Frame (ρ : Type) where
  columns : List String
  rows : List ρ
deriving DecidableEq

/-- Model of `pd.DataFrame(rows)` where each row is a dict with keys `cols`:
an empty row list yields a frame with no columns at all. -/
def mkFrame {ρ : Type} (cols : List String) (rows : List ρ) : Frame ρ :=
  ⟨if rows.isEmpty then [] else cols, rows⟩

/-- Model of `df[df[col] <boolean predicate>]`: boolean-mask selection; referencing a
missing column raises `KeyError`. -/
def Frame.selectRows {ρ : Type} (f : Frame ρ) (col : String) (p : ρ → Bool) :
    Except PyError (Frame ρ) :=
  if col ∈ f.columns then .ok ⟨f.columns, f.rows.filter p⟩
  else .error (.keyError col)

/-- Keep the first row for every key value, preserving order
(`drop_duplicates(subset=col)` semantics on the row list). -/
def dedupByKey {ρ K : Type} [DecidableEq K] (key : ρ → K) :
    List K → List ρ → List ρ
  | _, [] => []
  | seen, x :: xs =>
    if key x ∈ seen then dedupByKey key seen xs
    else x :: dedupByKey key (key x :: seen) xs

/-- Model of `df.drop_duplicates(subset=col)`; a missing column raises `KeyError`. -/
def Frame.dropDuplicates {ρ K : Type} [DecidableEq K] (f : Frame ρ)
    (col : String) (key : ρ → K) : Except PyError (Frame ρ) :=
  if col ∈ f.columns then .ok ⟨f.columns, dedupByKey key [] f.rows⟩
  else .error (.keyError col)

/-- Model of `df.sort_values(col)` (ascending); a missing column raises `KeyError`. -/
def Frame.sortValuesAsc {ρ K : Type} [LinearOrder K] (f : Frame ρ)
    (col : String) (key : ρ → K) : Except PyError (Frame ρ) :=
  if col ∈ f.columns then
    .ok ⟨f.columns, f.rows.insertionSort (fun a b => key a ≤ key b)⟩
  else .error (.keyError col)

/-- Model of `df.sort_values(col, ascending=False)` for a boolean key comparison `le`;
a missing column raises `KeyError`. -/
def Frame.sortValuesDescBy {ρ : Type} (f : Frame ρ)
    (col : String) (le : ρ → ρ → Bool) : Except PyError (Frame ρ) :=
  if col ∈ f.columns then
    .ok ⟨f.columns, f.rows.insertionSort (fun a b => le b a = true)⟩
  else .error (.keyError col)

/-- Columns of the `AccountService.get_accounts` table. -/
def ACCOUNT_COLUMNS : List String := ["ID", "NAME", "OPENED_AT", "BALANCE_RUB"]

/-- One row of the `get_accounts` table. -/
structure AccountRow where
  ID : String
  NAME : String
  OPENED_AT : Option Int
  BALANCE_RUB : Q
deriving DecidableEq

/-- The row built for one account (id, name, opening date, portfolio total). -/
def accountRow (env : Env) (acc : BrokerAccount) : AccountRow :=
  { ID := acc.id, NAME := acc.name, OPENED_AT := acc.openedDate,
    BALANCE_RUB := (env.getPortfolio acc.id).totalAmountPortfolio.toQ }

/-- The per-account body of the loop in `AccountService.get_accounts`:
fetches each account's portfolio to report its balance. -/
def accountRowsLoop (env : Env) : List BrokerAccount → Res (List AccountRow)
  | [] => pure []
  | acc :: rest => do
    let pf ← brokerCall (.getPortfolio acc.id) (env.getPortfolio acc.id)
    let rows ← accountRowsLoop env rest
    pure ({ ID := acc.id, NAME := acc.name, OPENED_AT := acc.openedDate,
            BALANCE_RUB := pf.totalAmountPortfolio.toQ } :: rows)

/-- Model of `AccountService.get_accounts`. -/
def get_accounts (env : Env) : Res (Frame AccountRow) := do
  let accs ← brokerCall .getAccounts env.accounts
  let rows ← accountRowsLoop env accs
  pure (mkFrame ACCOUNT_COLUMNS rows)

/-- The message of the `ValueError` raised for an unknown account name. -/
def accountNotFoundMsg (name : String) : String :=
  "Счет с именем " ++ name ++ " не найден"

/-- Model of `AccountService.get_account_id`. -/
def get_account_id (env : Env) (name : String) : Res String := do
  let accounts ← get_accounts env
  let m ← ofExcept (accounts.selectRows "NAME" (fun r => r.NAME == name))
  match m.rows with
  | [] => throwPy (.valueError (accountNotFoundMsg name))
  | a :: _ => pure a.ID

/-- One day of `datetime` time: datetimes are microseconds since the epoch,
so `timedelta(days=1)` is `DAY`. -/
def DAY : Int := 86400000000

/-- Model of `MarketDataService._INTERVAL_MAP.get`. -/
def INTERVAL_MAP (s : String) : Option CandleInterval :=
  if s = "1m" then some .min1
  else if s = "5m" then some .min5
  else if s = "15m" then some .min15
  else if s = "1h" then some .hour
  else if s = "1d" then some .day
  else if s = "1w" then some .week
  else if s = "1mo" then some .month
  else none

/-- The `max_range.get` table of `get_history` (per-interval request caps). -/
def MAX_RANGE (s : String) : Option Int :=
  if s = "1m" then some DAY
  else if s = "5m" then some (7 * DAY)
  else if s = "15m" then some (30 * DAY)
  else if s = "1h" then some (30 * DAY)
  else if s = "1d" then some (365 * DAY)
  else if s = "1w" then some (365 * 5 * DAY)
  else if s = "1mo" then some (365 * 10 * DAY)
  else none

/-- Model of `MarketDataService._FX_TICKERS.get`. -/
def FX_TICKERS (fc tc : String) : Option String :=
  if fc = "USD" ∧ tc = "RUB" then some "USD000UTSTOM"
  else if fc = "EUR" ∧ tc = "RUB" then some "EUR_RUB__TOM"
  else none

/-- The message of the `ValueError` raised for an unmapped currency pair. -/
def fxPairMsg (fc tc : String) : String :=
  "Нет валютной пары " ++ fc ++ "/" ++ tc

/-- Model of `MarketDataService.convert_currency`. -/
def convert_currency (env : Env) (from_currency to_currency : String)
    (amount : Option Q) : Res Q :=
  let fc := py_upper from_currency
  let tc := py_upper to_currency
  if fc = tc then
    pure (match amount with | some a => a | none => qint 1)
  else
    let tickerOpt := FX_TICKERS fc tc
    if tickerOpt.getD "" = "" then throwPy (.valueError (fxPairMsg fc tc))
    else
      let t := tickerOpt.getD ""
      do
        let insts ← brokerCall (.findInstrument t) (env.findInstrument t)
        match insts with
        | [] => throwPy (.indexError "list index out of range")
        | instrument :: _ => do
          let lps ← brokerCall (.getLastPrices [instrument.figi])
            [env.lastPriceOf instrument.figi]
          match lps with
          | [] => throwPy (.indexError "list index out of range")
          | price :: _ =>
            let rate := price.toQ
            match amount with
            | some a => pure (qmul a rate)
            | none => pure rate

/-- The message of the `ValueError` raised when no FIGI is found. -/
def figiNotFoundMsg (ticker instrument_type : String) : String :=
  "FIGI для " ++ ticker ++ " с типом " ++ instrument_type ++ " не найдено"

/-- Model of `MarketDataService.get_figi`.  The share branch scans the base share
listing for an exact ticker match; the bond branch free-text-searches the
(uppercased) ticker and takes the first result whose kind is bond; any other
`instrument_type` leaves the local `inst` unassigned, so the `if not inst`
line raises `UnboundLocalError`. -/
def get_figi (env : Env) (ticker : String) (instrument_type : String) : Res String :=
  let t := py_upper ticker
  if py_lower instrument_type = "share" then do
    let instruments ← brokerCall .getShares env.shares
    match instruments.find? (fun i => i.ticker == t) with
    | some inst => pure inst.figi
    | none => throwPy (.valueError (figiNotFoundMsg t instrument_type))
  else if py_lower instrument_type = "bond" then do
    let instruments ← brokerCall (.findInstrument t) (env.findInstrument t)
    match instruments.find? (fun i => i.instrumentKind == InstrumentType.bond) with
    | some inst => pure inst.figi
    | none => throwPy (.valueError (figiNotFoundMsg t instrument_type))
  else throwPy (.unboundLocalError "inst")

/-- Model of `MarketDataService.get_ticker`. -/
def get_ticker (env : Env) (figi : String) : Res (Option String) :=
  if figi = "" then pure none
  else do
    let instr ← brokerCall (.getInstrumentBy figi) (env.instrumentBy figi)
    match instr with
    | none =>
      throwPy (.valueError ("Инструмент с FIGI " ++ figi ++ " не найден или тикер отсутствует"))
    | some i =>
      if i.ticker = "" then
        throwPy (.valueError ("Инструмент с FIGI " ++ figi ++ " не найден или тикер отсутствует"))
      else pure (some i.ticker)

/-- Model of `MarketDataService.get_current_price`. -/
def get_current_price (env : Env) (ticker : String) : Res Q := do
  let figi ← get_figi env ticker "share"
  let orderbook ← brokerCall (.getOrderBook figi 1) (env.orderBook figi)
  match orderbook.lastPrice with
  | some lp => pure lp.toQ
  | none =>
    let bid_price := orderbook.bids.head?.map Quotation.toQ
    let ask_price := orderbook.asks.head?.map Quotation.toQ
    match bid_price, ask_price with
    | some b, some a => pure (qdiv (qadd b a) (qint 2))
    | some b, none => pure b
    | none, some a => pure a
    | none, none =>
      throwPy (.valueError ("Невозможно получить текущую цену для " ++ ticker))

/-- Columns of the `get_history` table. -/
def HISTORY_COLUMNS : List String :=
  ["time", "open", "high", "low", "close", "volume"]

/-- One row of the `get_history` table; `openV` .. `closeV` hold the
`open`/`high`/`low`/`close` column values. -/
structure CandleRow where
  time : Int
  openV : Q
  highV : Q
  lowV : Q
  closeV : Q
  volume : Int
deriving DecidableEq

/-- The row appended for one candle (`units + nano / 1e9` per price). -/
def candleToRow (c : BrokerCandle) : CandleRow :=
  { time := c.time, openV := c.openQ.toQ, highV := c.highQ.toQ,
    lowV := c.lowQ.toQ, closeV := c.closeQ.toQ, volume := c.volume }

/-- The `while cur_from < to_date` loop of `get_history`, reduced to the
`(cur_from, cur_to)` spans it requests: each step requests
`(cur_from, min (cur_from + step, to_date))` and continues from `cur_to`.
The loop advances by at least one microsecond per iteration whenever
`0 < step`, so `(to_date - cur_from).toNat` steps of fuel always suffice. -/
def historyChunks (step : Int) : Nat → Int → Int → List (Int × Int)
  | 0, _, _ => []
  | fuel + 1, lo, hi =>
    if lo < hi then
      (lo, min (lo + step) hi) :: historyChunks step fuel (min (lo + step) hi) hi
    else []

/-- The candle-fetching loop of `get_history`: one `get_candles` request per
chunk, appending the converted rows in request order. -/
def candleLoop (env : Env) (figi : String) (ti : CandleInterval) :
    List (Int × Int) → Res (List CandleRow)
  | [] => pure []
  | (a, b) :: rest => do
    let candles ← brokerCall (.getCandles figi a b ti) (env.getCandles figi a b ti)
    let rows ← candleLoop env figi ti rest
    pure (candles.map candleToRow ++ rows)

/-- Model of `MarketDataService.get_history`.  The unreachable `TypeError` branch
models `cur_from + step` with `step = None`, which cannot happen because
`max_range` has exactly the keys of `_INTERVAL_MAP`. -/
def get_history (env : Env) (ticker : String) (from_date to_date : Int)
    (interval : String) : Res (Frame CandleRow) := do
  let figi ← get_figi env ticker "share"
  match INTERVAL_MAP interval with
  | none => throwPy (.valueError ("Interval " ++ interval ++ " не поддерживается."))
  | some ti_interval =>
    match MAX_RANGE interval with
    | none => throwPy (.typeError "unsupported operand type for datetime + NoneType")
    | some step =>
      let chs := historyChunks step (to_date - from_date).toNat from_date to_date
      let all_rows ← candleLoop env figi ti_interval chs
      if all_rows.isEmpty then
        pure (Frame.mk HISTORY_COLUMNS [])
      else do
        let df ← ofExcept
          ((mkFrame HISTORY_COLUMNS all_rows).dropDuplicates "time" (fun r => r.time))
        ofExcept (df.sortValuesAsc "time" (fun r => r.time))

/-- The response of `client.orders.post_order`. -/
structure OrderResponse where
  orderId : String
deriving DecidableEq

/-- Model of `TradeService._place_order`: validates quantity and price before the
`with Client` block, then submits exactly one order. -/
def place_order (env : Env) (account figi : String) (quantity : Int)
    (direction : OrderDirection) (price : Option Q) : Res OrderResponse :=
  if quantity ≤ 0 then throwPy (.valueError "Количество должно быть положительным.")
  else
    let order_type := if price.isNone then OrderType.market else OrderType.limit
    match price with
    | some p =>
      if qle p qzero then throwPy (.valueError "Цена должна быть положительной")
      else
        brokerCall (.postOrder figi quantity account direction order_type (some p))
          ⟨env.postOrderId⟩
    | none =>
      brokerCall (.postOrder figi quantity account direction order_type none)
        ⟨env.postOrderId⟩

/-- Model of `TradeService.buy`: resolves the account and the ticker, then places a
buy order and returns the broker-issued order id. -/
def buy (env : Env) (account ticker : String) (quantity : Int)
    (price : Option Q) : Res String := do
  let account_id ← get_account_id env account
  let figi ← get_figi env ticker "share"
  let order ← place_order env account_id figi quantity .buy price
  pure order.orderId

/-- Model of `TradeService.sell`: like `buy` with the sell direction. -/
def sell (env : Env) (account ticker : String) (quantity : Int)
    (price : Option Q) : Res String := do
  let account_id ← get_account_id env account
  let figi ← get_figi env ticker "share"
  let order ← place_order env account_id figi quantity .sell price
  pure order.orderId

/-- The `stop_order_type_map` of `TradeService._place_stop_order`. -/
def STOP_ORDER_TYPE_MAP (s : String) : Option StopOrderType :=
  if s = "STOP_LOSS" then some .stopLoss
  else if s = "TAKE_PROFIT" then some .takeProfit
  else none

/-- Model of `TradeService._place_stop_order`. -/
def place_stop_order (env : Env) (account_id figi : String) (quantity : Int)
    (stop_price exec_price : Q) (direction order_type : String) : Res String :=
  match STOP_ORDER_TYPE_MAP order_type with
  | none => throwPy (.valueError "order_type должен быть STOP_LOSS или TAKE_PROFIT")
  | some sot =>
    let dir := if py_upper direction = "SELL" then StopOrderDirection.sell
      else StopOrderDirection.buy
    brokerCall
      (.postStopOrder account_id figi quantity stop_price exec_price dir
        .goodTillCancel sot)
      env.postStopOrderId

/-- Model of `TradeService.long_stop_loss`: sell-side stop loss. -/
def long_stop_loss (env : Env) (account ticker : String)
    (stop_price exec_price : Q) (quantity : Int) : Res String := do
  let account_id ← get_account_id env account
  let figi ← get_figi env ticker "share"
  place_stop_order env account_id figi quantity stop_price exec_price "SELL" "STOP_LOSS"

/-- Model of `TradeService.long_take_profit`: sell-side take profit. -/
def long_take_profit (env : Env) (account ticker : String)
    (stop_price exec_price : Q) (quantity : Int) : Res String := do
  let account_id ← get_account_id env account
  let figi ← get_figi env ticker "share"
  place_stop_order env account_id figi quantity stop_price exec_price "SELL" "TAKE_PROFIT"

/-- Model of `TradeService.short_stop_loss`: buy-side stop loss. -/
def short_stop_loss (env : Env) (account ticker : String)
    (stop_price exec_price : Q) (quantity : Int) : Res String := do
  let account_id ← get_account_id env account
  let figi ← get_figi env ticker "share"
  place_stop_order env account_id figi quantity stop_price exec_price "BUY" "STOP_LOSS"

/-- Model of `TradeService.short_take_profit`: buy-side take profit. -/
def short_take_profit (env : Env) (account ticker : String)
    (stop_price exec_price : Q) (quantity : Int) : Res String := do
  let account_id ← get_account_id env account
  let figi ← get_figi env ticker "share"
  place_stop_order env account_id figi quantity stop_price exec_price "BUY" "TAKE_PROFIT"

/-- The dict returned by `MarketDataService.bond_info`. -/
structure BondInfo where
  ticker : String
  name : String
  bondCurrency : String
  nominalCurrency : Option String
  couponCurrency : Option String
  nominal : Q
  initialNominal : Q
  aciValue : Q
  monthlyCoupon : Q
  couponQuantityPerYear : Int
  maturityDate : Option Int
  placementDate : Option Int
  floatingCoupon : Bool
  amortization : Bool
deriving DecidableEq

/-- The static fields of the `bond_info` dict, given the derived coupon data. -/
def bondInfoDict (bond : BrokerBond) (couponCurrency : Option String)
    (monthlyCoupon : Q) : BondInfo :=
  { ticker := bond.ticker, name := bond.name, bondCurrency := bond.currency,
    nominalCurrency := bond.nominal.map (fun m => m.currency),
    couponCurrency := couponCurrency,
    nominal := money_to_float bond.nominal,
    initialNominal := money_to_float bond.initialNominal,
    aciValue := money_to_float bond.aciValue,
    monthlyCoupon := monthlyCoupon,
    couponQuantityPerYear := bond.couponQuantityPerYear,
    maturityDate := bond.maturityDate, placementDate := bond.placementDate,
    floatingCoupon := bond.floatingCouponFlag,
    amortization := bond.amortizationFlag }

/-- Model of `max(valid_coupons, key=lambda x: x.coupon_date)`: the first coupon with
the maximal coupon date. -/
def maxByCouponDate (c0 : BrokerCoupon) (cs : List BrokerCoupon) : BrokerCoupon :=
  cs.foldl (fun best c => if best.couponDate < c.couponDate then c else best) c0

/-- Model of `MarketDataService.bond_info`. -/
def bond_info (env : Env) (ticker : String) : Res BondInfo := do
  let figi ← get_figi env ticker "bond"
  let bond ← brokerCall (.getBondBy figi) (env.bondBy figi)
  let coupons ← brokerCall (.getBondCoupons figi) (env.bondCoupons figi)
  let valid_coupons := coupons.filter (fun c =>
    match c.payOneBond with
    | some p => p.units != 0 || p.nano != 0
    | none => false)
  match valid_coupons with
  | [] => pure (bondInfoDict bond none qzero)
  | c0 :: cs =>
    let last_coupon := maxByCouponDate c0 cs
    match last_coupon.payOneBond with
    | none => throwPy (.attributeError "NoneType has no attribute currency")
    | some pay => do
      let coupon_amount ←
        if pay.currency = "RUB" then pure pay.toQ
        else convert_currency env pay.currency "RUB" (some pay.toQ)
      let monthly := qdiv (qmul coupon_amount (qint bond.couponQuantityPerYear)) (qint 12)
      pure (bondInfoDict bond (some pay.currency) monthly)

/-- The `_OPERATION_TYPE_MAP.get` lookup of `PortfolioService`. -/
def OPERATION_TYPE_MAP (s : String) : Option String :=
  if s = "OPERATION_TYPE_BUY" then some "BUY"
  else if s = "OPERATION_TYPE_SELL" then some "SELL"
  else if s = "OPERATION_TYPE_BROKER_FEE" then some "FEE"
  else if s = "OPERATION_TYPE_INP_MULTI" then some "DEPOSIT"
  else if s = "OPERATION_TYPE_OUT_MULTI" then some "WITHDRAW"
  else none

/-- Columns of the `get_positions` table. -/
def POSITION_COLUMNS : List String :=
  ["figi", "ticker", "instrument_type", "quantity", "average_price",
   "current_price", "expected_yield", "return_pct"]

/-- One row of the `get_positions` table. -/
structure PositionRow where
  figi : String
  ticker : Option String
  instrumentType : String
  quantity : Q
  averagePrice : Q
  currentPrice : Q
  expectedYield : Q
  returnPct : Q
deriving DecidableEq

/-- The per-position body of the loop in `get_positions`; the ticker is
resolved through the broker whenever the position carries a FIGI. -/
def positionRowsLoop (env : Env) : List BrokerPosition → Res (List PositionRow)
  | [] => pure []
  | pos :: rest => do
    let quantity := quotation_to_float pos.quantity
    let avg_price := quotation_to_float pos.averagePositionPrice
    let current_price := quotation_to_float pos.currentPrice
    let expected_yield := quotation_to_float pos.expectedYield
    let return_pct :=
      if qlt qzero avg_price then
        qmul (qdiv (qsub current_price avg_price) avg_price) (qint 100)
      else qzero
    let ticker ← if pos.figi ≠ "" then get_ticker env pos.figi else pure none
    let rows ← positionRowsLoop env rest
    pure ({ figi := pos.figi, ticker := ticker,
            instrumentType := pos.instrumentType, quantity := quantity,
            averagePrice := avg_price, currentPrice := current_price,
            expectedYield := expected_yield, returnPct := return_pct } :: rows)

/-- Model of `PortfolioService.get_positions`. -/
def get_positions (env : Env) (account : String) : Res (Frame PositionRow) := do
  let account_id ← get_account_id env account
  let pf ← brokerCall (.getPortfolio account_id) (env.getPortfolio account_id)
  let rows ← positionRowsLoop env pf.positions
  let df := mkFrame POSITION_COLUMNS rows
  if df.rows.isEmpty then pure df
  else ofExcept (df.sortValuesDescBy "expected_yield"
    (fun a b => qle a.expectedYield b.expectedYield))

/-- Columns of the `get_operations_history` table. -/
def OPS_COLUMNS : List String :=
  ["time", "type", "ticker", "quantity", "price", "payment"]

/-- One row of the `get_operations_history` table; `typeLabel` is the value
of the `type` column. -/
structure OperationRow where
  time : Int
  typeLabel : Option String
  ticker : Option String
  quantity : Int
  price : Q
  payment : Q
deriving DecidableEq

/-- The per-operation body of the loop in `get_operations_history`. -/
def operationRowsLoop (env : Env) : List BrokerOperation → Res (List OperationRow)
  | [] => pure []
  | op :: rest => do
    let ticker ← if op.figi ≠ "" then get_ticker env op.figi else pure none
    let rows ← operationRowsLoop env rest
    pure ({ time := op.date, typeLabel := OPERATION_TYPE_MAP op.operationTypeName,
            ticker := ticker, quantity := op.quantity,
            price := quotation_to_float op.price,
            payment := quotation_to_float op.payment } :: rows)

/-- Model of `PortfolioService.get_operations_history`: note that the final
`pd.DataFrame(rows).sort_values("time")` is applied even to an empty row
list, whose frame has no columns. -/
def get_operations_history (env : Env) (account : String)
    (from_date to_date : Int) : Res (Frame OperationRow) := do
  let account_id ← get_account_id env account
  let ops ← brokerCall (.getOperations account_id from_date to_date)
    (env.getOperations account_id from_date to_date)
  let rows ← operationRowsLoop env ops
  ofExcept ((mkFrame OPS_COLUMNS rows).sortValuesAsc "time" (fun r => r.time))

/-- Columns explicitly given for an empty bond report. -/
def BONDS_EMPTY_COLUMNS : List String :=
  ["ticker", "name", "quantity", "average_price", "nominal",
   "monthly_coupon", "total_monthly_coupon", "coupon_yield_pct"]

/-- Columns of the rows built by the bond enrichment loop. -/
def BOND_ROW_COLUMNS : List String :=
  ["ticker", "name", "quantity", "average_price", "nominal", "monthly_coupon"]

/-- One enriched row of the `bonds` report. -/
structure BondRow where
  ticker : Option String
  name : String
  quantity : Q
  averagePrice : Q
  nominal : Q
  monthlyCoupon : Q
deriving DecidableEq

/-- The `try` body of the bond enrichment loop for one position row.  A row
whose ticker is `None` makes `bond_info` call `.upper()` on `None`. -/
def bondTryAttempt (env : Env) (row : PositionRow) : Res BondRow :=
  match row.ticker with
  | none => throwPy (.attributeError "NoneType has no attribute upper")
  | some t => do
    let info ← bond_info env t
    pure { ticker := row.ticker, name := info.name, quantity := row.quantity,
           averagePrice := row.averagePrice, nominal := info.nominal,
           monthlyCoupon := info.monthlyCoupon }

/-- One iteration of the bond enrichment loop, with the `except Exception`
clause: a raised error is logged and yields no row. -/
def bondTryRow (env : Env) (row : PositionRow) : Res (Option BondRow) :=
  ⟨.ok (bondTryAttempt env row).result.toOption, (bondTryAttempt env row).trace⟩

/-- The row-collection loop of `PortfolioService.bonds`. -/
def bondEnrichLoop (env : Env) : List PositionRow → Res (List BondRow)
  | [] => pure []
  | row :: rest => do
    let r ← bondTryRow env row
    let rs ← bondEnrichLoop env rest
    pure (match r with | some b => b :: rs | none => rs)

/-- Model of `PortfolioService.bonds`. -/
def bonds (env : Env) (account : String) : Res (Frame BondRow) := do
  let df ← get_positions env account
  if df.rows.isEmpty then pure ⟨df.columns, []⟩
  else do
    let bond_positions ← ofExcept
      (df.selectRows "instrument_type" (fun r => py_lower r.instrumentType == "bond"))
    if bond_positions.rows.isEmpty then pure ⟨BONDS_EMPTY_COLUMNS, []⟩
    else do
      let lst ← bondEnrichLoop env bond_positions.rows
      ofExcept ((mkFrame BOND_ROW_COLUMNS lst).sortValuesDescBy "monthly_coupon"
        (fun a b => qle a.monthlyCoupon b.monthlyCoupon))

/-- Columns of the rows built by the stock enrichment loop (these coincide
with the columns given for an empty stock report). -/
def STOCK_ROW_COLUMNS : List String :=
  ["ticker", "name", "quantity", "average_price", "current_price",
   "unrealized_profit", "return_pct"]

/-- One enriched row of the `stocks` report. -/
structure StockRow where
  ticker : Option String
  name : Option String
  quantity : Q
  averagePrice : Q
  currentPrice : Q
  unrealizedProfit : Q
  returnPct : Q
deriving DecidableEq

/-- The `try` body of the stock enrichment loop for one position row. -/
def stockTryAttempt (env : Env) (row : PositionRow) : Res StockRow :=
  match row.ticker with
  | none => throwPy (.attributeError "NoneType has no attribute upper")
  | some t => do
    let current_price ← get_current_price env t
    let unrealized := qmul (qsub current_price row.averagePrice) row.quantity
    let return_pct :=
      if qlt qzero row.averagePrice then
        qmul (qdiv (qsub current_price row.averagePrice) row.averagePrice) (qint 100)
      else qzero
    pure { ticker := row.ticker, name := row.ticker, quantity := row.quantity,
           averagePrice := row.averagePrice, currentPrice := current_price,
           unrealizedProfit := unrealized, returnPct := return_pct }

/-- One iteration of the stock enrichment loop, with the `except Exception`
clause: a raised error is logged and yields no row. -/
def stockTryRow (env : Env) (row : PositionRow) : Res (Option StockRow) :=
  ⟨.ok (stockTryAttempt env row).result.toOption, (stockTryAttempt env row).trace⟩

/-- The row-collection loop of `PortfolioService.stocks`. -/
def stockEnrichLoop (env : Env) : List PositionRow → Res (List StockRow)
  | [] => pure []
  | row :: rest => do
    let r ← stockTryRow env row
    let rs ← stockEnrichLoop env rest
    pure (match r with | some b => b :: rs | none => rs)

/-- Model of `PortfolioService.stocks`. -/
def stocks (env : Env) (account : String) : Res (Frame StockRow) := do
  let df ← get_positions env account
  if df.rows.isEmpty then pure ⟨df.columns, []⟩
  else do
    let stock_positions ← ofExcept
      (df.selectRows "instrument_type" (fun r => py_lower r.instrumentType == "share"))
    if stock_positions.rows.isEmpty then pure ⟨STOCK_ROW_COLUMNS, []⟩
    else do
      let lst ← stockEnrichLoop env stock_positions.rows
      ofExcept ((mkFrame STOCK_ROW_COLUMNS lst).sortValuesDescBy "unrealized_profit"
        (fun a b => qle a.unrealizedProfit b.unrealizedProfit))

/-- A small broker with one account named `Main` and one share `SBER`. -/
def envBase : Env :=
  { accounts := [⟨"acc-1", "Main", none⟩]
    getPortfolio := fun _ => ⟨⟨"rub", 100, 0⟩, []⟩
    shares := [⟨"BBG004730N88", "SBER", .share⟩]
    findInstrument := fun _ => []
    instrumentBy := fun _ => none
    orderBook := fun _ => ⟨some ⟨300, 0⟩, [], []⟩
    getCandles := fun _ _ _ _ => []
    lastPriceOf := fun _ => ⟨90, 0⟩
    getOperations := fun _ _ _ => []
    postOrderId := "order-1"
    postStopOrderId := "stop-1"
    bondBy := fun _ => ⟨"BOND1", "Bond one", "rub", none, none, none, 4, none, none, false, false⟩
    bondCoupons := fun _ => [] }

theorem Res.bind_trace_of_ok {α β : Type} (x : Res α) (f : α → Res β) (a : α)
    (h : x.result = .ok a) :
    (Res.bind x f).trace = x.trace ++ (f a).trace := by
  rw [Res.bind_of_ok x f a h]

theorem Res.bind_trace_of_error {α β : Type} (x : Res α) (f : α → Res β)
    (e : PyError) (h : x.result = .error e) : (Res.bind x f).trace = x.trace := by
  rw [Res.bind_of_error x f e h]

theorem Res.bind_mk_ok {α β : Type} (a : α) (t : List BrokerCall) (f : α → Res β) :
    Res.bind ⟨.ok a, t⟩ f = ⟨(f a).result, t ++ (f a).trace⟩ := rfl

theorem Res.bind_mk_error {α β : Type} (e : PyError) (t : List BrokerCall)
    (f : α → Res β) : Res.bind ⟨.error e, t⟩ f = ⟨.error e, t⟩ := rfl

/-- Model of `(l.filter p).head?` finds the first element satisfying `p`. -/
theorem head?_filter_eq_find? {α : Type} (p : α → Bool) :
    ∀ l : List α, (l.filter p).head? = l.find? p := by
  intro l
  induction l with
  | nil => rfl
  | cons a l ih =>
    by_cases h : p a
    · simp [List.filter_cons, List.find?_cons, h]
    · simp only [List.filter_cons, List.find?_cons]
      rw [if_neg (by simp [h]), ih]
      cases hpa : p a
      · rfl
      · exact absurd hpa h

/-- The keys of `dedupByKey key seen l` are pairwise distinct and avoid `seen`. -/
theorem dedupByKey_pairwise {ρ K : Type} [DecidableEq K] (key : ρ → K) :
    ∀ (l : List ρ) (seen : List K),
      ((dedupByKey key seen l).Pairwise fun a b => key a ≠ key b) ∧
      ∀ y ∈ dedupByKey key seen l, key y ∉ seen := by
  intro l
  induction l with
  | nil => intro seen; simp [dedupByKey]
  | cons x xs ih =>
    intro seen
    by_cases h : key x ∈ seen
    · simpa [dedupByKey, h] using ih seen
    · simp only [dedupByKey, if_neg h]
      refine ⟨.cons ?_ ?_, ?_⟩
      · intro y hy
        have hns := (ih (key x :: seen)).2 y hy
        intro he
        exact hns (by rw [← he]; exact List.mem_cons_self _ _)
      · exact (ih (key x :: seen)).1
      · intro y hy
        rcases List.mem_cons.mp hy with rfl | hy'
        · exact h
        · intro hs
          exact (ih (key x :: seen)).2 y hy' (List.mem_cons_of_mem _ hs)

/-- Sorting the deduplicated rows by a key yields a strictly increasing
key sequence. -/
theorem insertionSort_dedup_pairwise_lt {ρ K : Type} [DecidableEq K]
    [LinearOrder K] (key : ρ → K) (l : List ρ) :
    ((dedupByKey key [] l).insertionSort fun a b => key a ≤ key b).Pairwise
      fun a b => key a < key b := by
  haveI : IsTotal ρ fun a b => key a ≤ key b := ⟨fun a b => le_total _ _⟩
  haveI : IsTrans ρ fun a b => key a ≤ key b := ⟨fun _ _ _ hab hbc => le_trans hab hbc⟩
  have hperm := List.perm_insertionSort (fun a b => key a ≤ key b) (dedupByKey key [] l)
  have hne : ((dedupByKey key [] l).insertionSort fun a b => key a ≤ key b).Pairwise
      fun a b => key a ≠ key b :=
    (hperm.pairwise_iff fun h he => h he.symm).mpr (dedupByKey_pairwise key l []).1
  have hle : ((dedupByKey key [] l).insertionSort fun a b => key a ≤ key b).Pairwise
      fun a b => key a ≤ key b :=
    List.sorted_insertionSort _ _
  exact (hle.and hne).imp fun h => lt_of_le_of_ne h.1 h.2

/-- Every chunk the history loop requests spans at most `step`. -/
theorem historyChunks_span (step : Int) :
    ∀ (fuel : Nat) (lo hi : Int), ∀ p ∈ historyChunks step fuel lo hi,
      p.2 - p.1 ≤ step := by
  intro fuel
  induction fuel with
  | zero => intro lo hi p hp; simp [historyChunks] at hp
  | succ n ih =>
    intro lo hi p hp
    by_cases h : lo < hi
    · rw [historyChunks, if_pos h] at hp
      rcases List.mem_cons.mp hp with rfl | hp'
      · have := min_le_left (lo + step) hi
        simp only
        omega
      · exact ih _ _ p hp'
    · rw [historyChunks, if_neg h] at hp
      exact absurd hp (List.not_mem_nil p)


@[simp] theorem Res.bind_def {α β : Type} (x : Res α) (f : α → Res β) :
    x >>= f = Res.bind x f := rfl

@[simp] theorem Res.pure_def {α : Type} (a : α) : (pure a : Res α) = ⟨.ok a, []⟩ := rfl

@[simp] theorem throwPy_def {α : Type} (e : PyError) :
    (throwPy e : Res α) = ⟨.error e, []⟩ := rfl

@[simp] theorem brokerCall_def {α : Type} (c : BrokerCall) (v : α) :
    brokerCall c v = ⟨.ok v, [c]⟩ := rfl

@[simp] theorem ofExcept_def {α : Type} (x : Except PyError α) :
    ofExcept x = ⟨x, []⟩ := rfl

@[simp] theorem Res.bind_mk_ok' {α β : Type} (a : α) (t : List BrokerCall)
    (f : α → Res β) :
    Res.bind ⟨.ok a, t⟩ f = ⟨(f a).result, t ++ (f a).trace⟩ := rfl

@[simp] theorem Res.bind_mk_error' {α β : Type} (e : PyError) (t : List BrokerCall)
    (f : α → Res β) : Res.bind ⟨.error e, t⟩ f = ⟨.error e, t⟩ := rfl

/-- The account loop fetches one portfolio per account, in listing order,
and builds one row per account. -/
theorem accountRowsLoop_eq (env : Env) :
    ∀ l : List BrokerAccount,
      accountRowsLoop env l =
        ⟨.ok (l.map (accountRow env)), l.map fun a => .getPortfolio a.id⟩ := by
  intro l
  induction l with
  | nil => rfl
  | cons acc rest ih => simp [accountRowsLoop, ih, accountRow]

/-- Model of `get_accounts`, fully evaluated. -/
theorem get_accounts_eq (env : Env) :
    get_accounts env =
      ⟨.ok (mkFrame ACCOUNT_COLUMNS (env.accounts.map (accountRow env))),
       .getAccounts :: env.accounts.map fun a => .getPortfolio a.id⟩ := by
  simp [get_accounts, accountRowsLoop_eq]

/-- Model of `get_account_id`, fully evaluated: with no accounts at all the frame has
no columns and the `accounts["NAME"]` selection raises `KeyError`; otherwise
the first exact name match wins, else a `ValueError` naming the query. -/
theorem get_account_id_eq (env : Env) (name : String) :
    get_account_id env name =
      ⟨(if (env.accounts.map (accountRow env)).isEmpty then
          .error (.keyError "NAME")
        else
          match (env.accounts.map (accountRow env)).filter
              (fun r => r.NAME == name) with
          | [] => .error (.valueError (accountNotFoundMsg name))
          | a :: _ => .ok a.ID),
       .getAccounts :: env.accounts.map fun a => .getPortfolio a.id⟩ := by
  by_cases h : (env.accounts.map (accountRow env)).isEmpty
  · simp [get_account_id, get_accounts_eq, mkFrame, Frame.selectRows, h]
  · have hmem : ("NAME" : String) ∈ ACCOUNT_COLUMNS := by decide
    simp only [get_account_id, Res.bind_def, get_accounts_eq, Res.bind_mk_ok',
      mkFrame, if_neg h, Frame.selectRows, if_pos hmem, ofExcept_def,
      Res.bind_mk_ok']
    cases hm : (env.accounts.map (accountRow env)).filter (fun r => r.NAME == name) with
    | nil => simp [h]
    | cons a rest => simp [h]

/-- The share branch of `get_figi`, fully evaluated. -/
theorem get_figi_share_eq (env : Env) (ticker instrument_type : String)
    (h : py_lower instrument_type = "share") :
    get_figi env ticker instrument_type =
      ⟨(match env.shares.find? (fun i => i.ticker == py_upper ticker) with
        | some inst => .ok inst.figi
        | none => .error (.valueError (figiNotFoundMsg (py_upper ticker) instrument_type))),
       [.getShares]⟩ := by
  simp only [get_figi, if_pos h, Res.bind_def, brokerCall_def, Res.bind_mk_ok']
  cases hm : env.shares.find? (fun i => i.ticker == py_upper ticker) with
  | none => simp
  | some inst => simp

/-- The bond branch of `get_figi`, fully evaluated: it free-text-searches the
uppercased ticker and keeps the first result of kind bond, never comparing
the result's own ticker. -/
theorem get_figi_bond_eq (env : Env) (ticker instrument_type : String)
    (hns : py_lower instrument_type ≠ "share")
    (h : py_lower instrument_type = "bond") :
    get_figi env ticker instrument_type =
      ⟨(match (env.findInstrument (py_upper ticker)).find?
            (fun i => i.instrumentKind == InstrumentType.bond) with
        | some inst => .ok inst.figi
        | none => .error (.valueError (figiNotFoundMsg (py_upper ticker) instrument_type))),
       [.findInstrument (py_upper ticker)]⟩ := by
  simp only [get_figi, if_neg hns, if_pos h, Res.bind_def, brokerCall_def,
    Res.bind_mk_ok']
  cases hm : (env.findInstrument (py_upper ticker)).find?
      (fun i => i.instrumentKind == InstrumentType.bond) with
  | none => simp
  | some inst => simp

/-- With an instrument type that is neither share nor bond, the local `inst`
is never assigned and `get_figi` raises `UnboundLocalError`, with no calls. -/
theorem get_figi_other_eq (env : Env) (ticker instrument_type : String)
    (hns : py_lower instrument_type ≠ "share")
    (hnb : py_lower instrument_type ≠ "bond") :
    get_figi env ticker instrument_type =
      ⟨.error (.unboundLocalError "inst"), []⟩ := by
  simp [get_figi, if_neg hns, if_neg hnb]

/-- The candle loop, fully evaluated: one `get_candles` request per chunk, in
order, and the concatenation of the converted rows. -/
theorem candleLoop_eq (env : Env) (figi : String) (ti : CandleInterval) :
    ∀ chs : List (Int × Int),
      candleLoop env figi ti chs =
        ⟨.ok ((chs.map fun p => (env.getCandles figi p.1 p.2 ti).map candleToRow).flatten),
         chs.map fun p => .getCandles figi p.1 p.2 ti⟩ := by
  intro chs
  induction chs with
  | nil => rfl
  | cons p rest ih =>
    obtain ⟨a, b⟩ := p
    simp [candleLoop, ih]

/-- Whether a broker call is a candle request spanning more than `w`. -/
def candleSpanOk (w : Int) : BrokerCall → Bool
  | .getCandles _ a b _ => decide (b - a ≤ w)
  | _ => true

/-- Model of `get_history`, fully evaluated modulo the outcome of ticker resolution. -/
theorem get_history_eq (env : Env) (t : String) (lo hi : Int) (iv : String)
    (figi : String) (ti : CandleInterval) (step : Int)
    (hf : (get_figi env t "share").result = .ok figi)
    (hti : INTERVAL_MAP iv = some ti) (hstep : MAX_RANGE iv = some step) :
    get_history env t lo hi iv =
      ⟨(if ((historyChunks step (hi - lo).toNat lo hi).map
            (fun p => (env.getCandles figi p.1 p.2 ti).map candleToRow)).flatten.isEmpty
        then .ok ⟨HISTORY_COLUMNS, []⟩
        else .ok ⟨HISTORY_COLUMNS,
          (dedupByKey (fun r => r.time) []
            ((historyChunks step (hi - lo).toNat lo hi).map
              (fun p => (env.getCandles figi p.1 p.2 ti).map candleToRow)).flatten).insertionSort
            fun a b => a.time ≤ b.time⟩),
       (get_figi env t "share").trace ++
         (historyChunks step (hi - lo).toNat lo hi).map
           fun p => .getCandles figi p.1 p.2 ti⟩ := by
  have hmem : ("time" : String) ∈ HISTORY_COLUMNS := by decide
  simp only [get_history, Res.bind_def, Res.bind_of_ok _ _ _ hf, hti, hstep,
    candleLoop_eq, Res.bind_mk_ok']
  by_cases h : ((historyChunks step (hi - lo).toNat lo hi).map
      (fun p => (env.getCandles figi p.1 p.2 ti).map candleToRow)).flatten.isEmpty
  · simp [h]
  · simp only [if_neg h]
    simp [mkFrame, h, Frame.dropDuplicates, hmem, Frame.sortValuesAsc]

/-- The `(direction, order type, price)` payloads of the orders submitted in
a call trace. -/
def postedOrderSpecs (t : List BrokerCall) : List (OrderDirection × OrderType × Option Q) :=
  t.filterMap fun c =>
    match c with
    | .postOrder _ _ _ d ot p => some (d, ot, p)
    | _ => none

theorem postedOrderSpecs_append (t1 t2 : List BrokerCall) :
    postedOrderSpecs (t1 ++ t2) = postedOrderSpecs t1 ++ postedOrderSpecs t2 :=
  List.filterMap_append t1 t2 _

theorem postedOrderSpecs_nil : postedOrderSpecs [] = [] := rfl

theorem postedOrderSpecs_cons_post (figi : String) (q : Int) (aid : String)
    (d : OrderDirection) (ot : OrderType) (p : Option Q) (t : List BrokerCall) :
    postedOrderSpecs (.postOrder figi q aid d ot p :: t) =
      (d, ot, p) :: postedOrderSpecs t := rfl

/-- Account resolution never submits an order. -/
theorem postedOrderSpecs_get_account_id (env : Env) (name : String) :
    postedOrderSpecs (get_account_id env name).trace = [] := by
  rw [get_account_id_eq]
  show postedOrderSpecs (_ :: _) = []
  simp only [postedOrderSpecs, List.filterMap_cons]
  induction env.accounts with
  | nil => rfl
  | cons a rest ih => simp [List.filterMap_cons, ih]

/-- Ticker resolution (share kind) never submits an order. -/
theorem postedOrderSpecs_get_figi_share (env : Env) (ticker : String) :
    postedOrderSpecs (get_figi env ticker "share").trace = [] := by
  rw [get_figi_share_eq env ticker "share" (by decide)]
  rfl

/-- The stop-order directions submitted in a call trace. -/
def stopDirections (t : List BrokerCall) : List StopOrderDirection :=
  t.filterMap fun c =>
    match c with
    | .postStopOrder _ _ _ _ _ d _ _ => some d
    | _ => none

theorem stopDirections_append (t1 t2 : List BrokerCall) :
    stopDirections (t1 ++ t2) = stopDirections t1 ++ stopDirections t2 :=
  List.filterMap_append t1 t2 _

theorem stopDirections_get_account_id (env : Env) (name : String) :
    stopDirections (get_account_id env name).trace = [] := by
  rw [get_account_id_eq]
  show stopDirections (_ :: _) = []
  simp only [stopDirections, List.filterMap_cons]
  induction env.accounts with
  | nil => rfl
  | cons a rest ih => simp [List.filterMap_cons, ih]

theorem stopDirections_get_figi_share (env : Env) (ticker : String) :
    stopDirections (get_figi env ticker "share").trace = [] := by
  rw [get_figi_share_eq env ticker "share" (by decide)]
  rfl

/-- Model of `buy`, evaluated modulo the resolution steps. -/
theorem buy_eq (env : Env) (account ticker : String) (quantity : Int)
    (price : Option Q) (aid figi : String)
    (hacc : (get_account_id env account).result = .ok aid)
    (hfig : (get_figi env ticker "share").result = .ok figi) :
    buy env account ticker quantity price =
      ⟨(place_order env aid figi quantity .buy price).result.map OrderResponse.orderId,
       (get_account_id env account).trace ++ (get_figi env ticker "share").trace ++
         (place_order env aid figi quantity .buy price).trace⟩ := by
  simp only [buy, Res.bind_def, Res.bind_of_ok _ _ _ hacc, Res.bind_of_ok _ _ _ hfig]
  cases hp : (place_order env aid figi quantity OrderDirection.buy price).result with
  | error e =>
    simp [Res.bind_of_error _ _ _ hp, hp, Except.map]
  | ok o =>
    simp [Res.bind_of_ok _ _ _ hp, hp, Except.map]

/-- Model of `sell`, evaluated modulo the resolution steps. -/
theorem sell_eq (env : Env) (account ticker : String) (quantity : Int)
    (price : Option Q) (aid figi : String)
    (hacc : (get_account_id env account).result = .ok aid)
    (hfig : (get_figi env ticker "share").result = .ok figi) :
    sell env account ticker quantity price =
      ⟨(place_order env aid figi quantity .sell price).result.map OrderResponse.orderId,
       (get_account_id env account).trace ++ (get_figi env ticker "share").trace ++
         (place_order env aid figi quantity .sell price).trace⟩ := by
  simp only [sell, Res.bind_def, Res.bind_of_ok _ _ _ hacc, Res.bind_of_ok _ _ _ hfig]
  cases hp : (place_order env aid figi quantity OrderDirection.sell price).result with
  | error e =>
    simp [Res.bind_of_error _ _ _ hp, hp, Except.map]
  | ok o =>
    simp [Res.bind_of_ok _ _ _ hp, hp, Except.map]

/-- Model of `long_stop_loss`, evaluated modulo the resolution steps: it submits one
sell-side stop-loss stop order. -/
theorem long_stop_loss_eq (env : Env) (account ticker : String)
    (sp ep : Q) (q : Int) (aid figi : String)
    (hacc : (get_account_id env account).result = .ok aid)
    (hfig : (get_figi env ticker "share").result = .ok figi) :
    long_stop_loss env account ticker sp ep q =
      ⟨.ok env.postStopOrderId,
       (get_account_id env account).trace ++ (get_figi env ticker "share").trace ++
         [.postStopOrder aid figi q sp ep .sell .goodTillCancel .stopLoss]⟩ := by
  simp only [long_stop_loss, Res.bind_def, Res.bind_of_ok _ _ _ hacc,
    Res.bind_of_ok _ _ _ hfig]
  simp [place_stop_order, STOP_ORDER_TYPE_MAP]
  decide

/-- Model of `long_take_profit`, evaluated modulo the resolution steps. -/
theorem long_take_profit_eq (env : Env) (account ticker : String)
    (sp ep : Q) (q : Int) (aid figi : String)
    (hacc : (get_account_id env account).result = .ok aid)
    (hfig : (get_figi env ticker "share").result = .ok figi) :
    long_take_profit env account ticker sp ep q =
      ⟨.ok env.postStopOrderId,
       (get_account_id env account).trace ++ (get_figi env ticker "share").trace ++
         [.postStopOrder aid figi q sp ep .sell .goodTillCancel .takeProfit]⟩ := by
  simp only [long_take_profit, Res.bind_def, Res.bind_of_ok _ _ _ hacc,
    Res.bind_of_ok _ _ _ hfig]
  simp [place_stop_order, STOP_ORDER_TYPE_MAP]
  decide

/-- Model of `short_stop_loss`, evaluated modulo the resolution steps: it submits one
buy-side stop-loss stop order. -/
theorem short_stop_loss_eq (env : Env) (account ticker : String)
    (sp ep : Q) (q : Int) (aid figi : String)
    (hacc : (get_account_id env account).result = .ok aid)
    (hfig : (get_figi env ticker "share").result = .ok figi) :
    short_stop_loss env account ticker sp ep q =
      ⟨.ok env.postStopOrderId,
       (get_account_id env account).trace ++ (get_figi env ticker "share").trace ++
         [.postStopOrder aid figi q sp ep .buy .goodTillCancel .stopLoss]⟩ := by
  simp only [short_stop_loss, Res.bind_def, Res.bind_of_ok _ _ _ hacc,
    Res.bind_of_ok _ _ _ hfig]
  simp [place_stop_order, STOP_ORDER_TYPE_MAP]
  decide

/-- Model of `short_take_profit`, evaluated modulo the resolution steps. -/
theorem short_take_profit_eq (env : Env) (account ticker : String)
    (sp ep : Q) (q : Int) (aid figi : String)
    (hacc : (get_account_id env account).result = .ok aid)
    (hfig : (get_figi env ticker "share").result = .ok figi) :
    short_take_profit env account ticker sp ep q =
      ⟨.ok env.postStopOrderId,
       (get_account_id env account).trace ++ (get_figi env ticker "share").trace ++
         [.postStopOrder aid figi q sp ep .buy .goodTillCancel .takeProfit]⟩ := by
  simp only [short_take_profit, Res.bind_def, Res.bind_of_ok _ _ _ hacc,
    Res.bind_of_ok _ _ _ hfig]
  simp [place_stop_order, STOP_ORDER_TYPE_MAP]
  decide

/-- An `ok` result of `get_positions` is either the column-less empty frame
or carries the full position column set. -/
theorem get_positions_shape (env : Env) (account : String) (df : Frame PositionRow)
    (h : (get_positions env account).result = .ok df) :
    (df.rows = [] ∧ df.columns = []) ∨ df.columns = POSITION_COLUMNS := by
  simp only [get_positions, Res.bind_def] at h
  cases haid : (get_account_id env account).result with
  | error e => rw [Res.bind_of_error _ _ _ haid] at h; exact absurd h (by simp)
  | ok aid =>
    rw [Res.bind_of_ok _ _ _ haid] at h
    simp only [brokerCall_def, Res.bind_mk_ok'] at h
    cases hr : (positionRowsLoop env (env.getPortfolio aid).positions).result with
    | error e => rw [Res.bind_of_error _ _ _ hr] at h; exact absurd h (by simp)
    | ok rows =>
      rw [Res.bind_of_ok _ _ _ hr] at h
      cases hrows : rows with
      | nil =>
        subst hrows
        simp [mkFrame] at h
        subst h
        exact Or.inl ⟨rfl, rfl⟩
      | cons r rest =>
        subst hrows
        have hmem : ("expected_yield" : String) ∈ POSITION_COLUMNS := by decide
        simp [mkFrame, Frame.sortValuesDescBy, hmem] at h
        subst h
        exact Or.inr rfl

/-- The bond enrichment loop never raises: it returns exactly the rows whose
`try` body succeeded, in order. -/
theorem bondEnrichLoop_eq (env : Env) :
    ∀ l : List PositionRow,
      (bondEnrichLoop env l).result =
        .ok (l.filterMap fun row => (bondTryAttempt env row).result.toOption) := by
  intro l
  induction l with
  | nil => rfl
  | cons row rest ih =>
    have hb : (bondTryRow env row).result =
        .ok (bondTryAttempt env row).result.toOption := rfl
    simp only [bondEnrichLoop, Res.bind_def, Res.bind_of_ok _ _ _ hb]
    cases hr : (bondEnrichLoop env rest).result with
    | error e => rw [ih] at hr; exact absurd hr (by simp)
    | ok rs =>
      rw [Res.bind_of_ok _ _ _ hr]
      rw [ih] at hr
      have hrs : rs = rest.filterMap (fun row => (bondTryAttempt env row).result.toOption) :=
        (Except.ok.inj hr).symm
      subst hrs
      cases ho : (bondTryAttempt env row).result.toOption <;>
        simp [ho, List.filterMap_cons]

/-- The stock enrichment loop never raises: it returns exactly the rows whose
`try` body succeeded, in order. -/
theorem stockEnrichLoop_eq (env : Env) :
    ∀ l : List PositionRow,
      (stockEnrichLoop env l).result =
        .ok (l.filterMap fun row => (stockTryAttempt env row).result.toOption) := by
  intro l
  induction l with
  | nil => rfl
  | cons row rest ih =>
    have hb : (stockTryRow env row).result =
        .ok (stockTryAttempt env row).result.toOption := rfl
    simp only [stockEnrichLoop, Res.bind_def, Res.bind_of_ok _ _ _ hb]
    cases hr : (stockEnrichLoop env rest).result with
    | error e => rw [ih] at hr; exact absurd hr (by simp)
    | ok rs =>
      rw [Res.bind_of_ok _ _ _ hr]
      rw [ih] at hr
      have hrs : rs = rest.filterMap (fun row => (stockTryAttempt env row).result.toOption) :=
        (Except.ok.inj hr).symm
      subst hrs
      cases ho : (stockTryAttempt env row).result.toOption <;>
        simp [ho, List.filterMap_cons]

/-- Model of `bonds`, evaluated modulo `get_positions`, for a nonempty position table:
with no bond positions it returns the typed empty report; when at least one
row survives enrichment it returns the surviving rows sorted by monthly
coupon; when every row's enrichment failed the final
`pd.DataFrame([]).sort_values("monthly_coupon")` raises `KeyError`. -/
theorem bonds_eq (env : Env) (account : String) (df : Frame PositionRow)
    (hpos : (get_positions env account).result = .ok df) (hne : df.rows ≠ []) :
    (bonds env account).result =
      (if (df.rows.filter fun r => py_lower r.instrumentType == "bond") = [] then
        .ok ⟨BONDS_EMPTY_COLUMNS, []⟩
      else if ((df.rows.filter fun r => py_lower r.instrumentType == "bond").filterMap
          fun row => (bondTryAttempt env row).result.toOption) = [] then
        .error (.keyError "monthly_coupon")
      else
        .ok ⟨BOND_ROW_COLUMNS,
          ((df.rows.filter fun r => py_lower r.instrumentType == "bond").filterMap
              fun row => (bondTryAttempt env row).result.toOption).insertionSort
            fun a b => qle b.monthlyCoupon a.monthlyCoupon = true⟩) := by
  have hcols : df.columns = POSITION_COLUMNS := by
    rcases get_positions_shape env account df hpos with ⟨h1, _⟩ | h2
    · exact absurd h1 hne
    · exact h2
  have hmem : ("instrument_type" : String) ∈ POSITION_COLUMNS := by decide
  have hie : df.rows.isEmpty = false := by
    cases hr : df.rows with
    | nil => exact absurd hr hne
    | cons a l => rfl
  simp only [bonds, Res.bind_def, Res.bind_of_ok _ _ _ hpos, hie,
    Bool.false_eq_true, if_false, Frame.selectRows, hcols, if_pos hmem,
    ofExcept_def, Res.bind_mk_ok']
  by_cases hbp : (df.rows.filter fun r => py_lower r.instrumentType == "bond") = []
  · simp [hbp]
  · have hbpe : ((df.rows.filter fun r => py_lower r.instrumentType == "bond")).isEmpty
        = false := by
      cases hr : df.rows.filter fun r => py_lower r.instrumentType == "bond" with
      | nil => exact absurd hr hbp
      | cons a l => rfl
    simp only [hbpe, Bool.false_eq_true, if_false, if_neg hbp,
      Res.bind_of_ok _ _ _ (bondEnrichLoop_eq env _)]
    by_cases hlst : ((df.rows.filter fun r => py_lower r.instrumentType == "bond").filterMap
        fun row => (bondTryAttempt env row).result.toOption) = []
    · simp [hlst, mkFrame, Frame.sortValuesDescBy, BOND_ROW_COLUMNS]
    · have hle : (((df.rows.filter fun r => py_lower r.instrumentType == "bond")).filterMap
          fun row => (bondTryAttempt env row).result.toOption).isEmpty = false := by
        cases hr : ((df.rows.filter fun r => py_lower r.instrumentType == "bond")).filterMap
            fun row => (bondTryAttempt env row).result.toOption with
        | nil => exact absurd hr hlst
        | cons a l => rfl
      have hmc : ("monthly_coupon" : String) ∈ BOND_ROW_COLUMNS := by decide
      simp [hlst, mkFrame, hle, Frame.sortValuesDescBy, hmc]

/-- Model of `stocks`, evaluated modulo `get_positions`, for a nonempty position table
(see `bonds_eq`). -/
theorem stocks_eq (env : Env) (account : String) (df : Frame PositionRow)
    (hpos : (get_positions env account).result = .ok df) (hne : df.rows ≠ []) :
    (stocks env account).result =
      (if (df.rows.filter fun r => py_lower r.instrumentType == "share") = [] then
        .ok ⟨STOCK_ROW_COLUMNS, []⟩
      else if ((df.rows.filter fun r => py_lower r.instrumentType == "share").filterMap
          fun row => (stockTryAttempt env row).result.toOption) = [] then
        .error (.keyError "unrealized_profit")
      else
        .ok ⟨STOCK_ROW_COLUMNS,
          ((df.rows.filter fun r => py_lower r.instrumentType == "share").filterMap
              fun row => (stockTryAttempt env row).result.toOption).insertionSort
            fun a b => qle b.unrealizedProfit a.unrealizedProfit = true⟩) := by
  have hcols : df.columns = POSITION_COLUMNS := by
    rcases get_positions_shape env account df hpos with ⟨h1, _⟩ | h2
    · exact absurd h1 hne
    · exact h2
  have hmem : ("instrument_type" : String) ∈ POSITION_COLUMNS := by decide
  have hie : df.rows.isEmpty = false := by
    cases hr : df.rows with
    | nil => exact absurd hr hne
    | cons a l => rfl
  simp only [stocks, Res.bind_def, Res.bind_of_ok _ _ _ hpos, hie,
    Bool.false_eq_true, if_false, Frame.selectRows, hcols, if_pos hmem,
    ofExcept_def, Res.bind_mk_ok']
  by_cases hbp : (df.rows.filter fun r => py_lower r.instrumentType == "share") = []
  · simp [hbp]
  · have hbpe : ((df.rows.filter fun r => py_lower r.instrumentType == "share")).isEmpty
        = false := by
      cases hr : df.rows.filter fun r => py_lower r.instrumentType == "share" with
      | nil => exact absurd hr hbp
      | cons a l => rfl
    simp only [hbpe, Bool.false_eq_true, if_false, if_neg hbp,
      Res.bind_of_ok _ _ _ (stockEnrichLoop_eq env _)]
    by_cases hlst : ((df.rows.filter fun r => py_lower r.instrumentType == "share").filterMap
        fun row => (stockTryAttempt env row).result.toOption) = []
    · simp [hlst, mkFrame, Frame.sortValuesDescBy, STOCK_ROW_COLUMNS]
    · have hle : (((df.rows.filter fun r => py_lower r.instrumentType == "share")).filterMap
          fun row => (stockTryAttempt env row).result.toOption).isEmpty = false := by
        cases hr : ((df.rows.filter fun r => py_lower r.instrumentType == "share")).filterMap
            fun row => (stockTryAttempt env row).result.toOption with
        | nil => exact absurd hr hlst
        | cons a l => rfl
      have hmc : ("unrealized_profit" : String) ∈ STOCK_ROW_COLUMNS := by decide
      simp [hlst, mkFrame, hle, Frame.sortValuesDescBy, hmc]

/-- A broker listing no accounts at all. -/
def envNoAccounts : Env := { envBase with accounts := [] }

/-- A broker whose free-text search for `AAA` returns a bond whose own ticker
is `BBB`. -/
def envC5 : Env :=
  { envBase with
    findInstrument := fun q => if q = "AAA" then [⟨"F1", "BBB", .bond⟩] else [] }

/-- A bond position whose enrichment succeeds under `envBonds`. -/
def posBondA : BrokerPosition :=
  ⟨"BF1", "bond", some ⟨2, 0⟩, some ⟨50, 0⟩, some ⟨55, 0⟩, some ⟨10, 0⟩⟩

/-- A bond position whose enrichment fails (its ticker is not searchable). -/
def posBondB : BrokerPosition :=
  ⟨"BF2", "bond", some ⟨1, 0⟩, some ⟨40, 0⟩, some ⟨41, 0⟩, some ⟨5, 0⟩⟩

/-- A share position whose enrichment succeeds under `envBonds`. -/
def posShareC : BrokerPosition :=
  ⟨"SF1", "share", some ⟨3, 0⟩, some ⟨100, 0⟩, some ⟨110, 0⟩, some ⟨30, 0⟩⟩

/-- A broker with two bond positions (one of which survives enrichment) and
one share position that survives enrichment. -/
def envBonds : Env :=
  { envBase with
    shares := [⟨"BBG004730N88", "SBER", .share⟩, ⟨"SF1", "SHARA", .share⟩]
    getPortfolio := fun _ => ⟨⟨"rub", 100, 0⟩, [posBondA, posBondB, posShareC]⟩
    instrumentBy := fun f =>
      if f = "BF1" then some ⟨"BF1", "BONDA", .bond⟩
      else if f = "BF2" then some ⟨"BF2", "BONDB", .bond⟩
      else if f = "SF1" then some ⟨"SF1", "SHARA", .share⟩
      else none
    findInstrument := fun q => if q = "BONDA" then [⟨"BF1", "BONDA", .bond⟩] else []
    bondBy := fun _ =>
      ⟨"BONDA", "Bond A", "rub", some ⟨"rub", 1000, 0⟩, none, none, 4, none, none,
        false, false⟩
    bondCoupons := fun _ => [⟨100, some ⟨"RUB", 10, 0⟩⟩] }

/-- The position table `get_positions` produces under `envBonds` (sorted by
descending expected yield). -/
def rowShareC : PositionRow :=
  ⟨"SF1", some "SHARA", "share", ⟨3, 1⟩, ⟨100, 1⟩, ⟨110, 1⟩, ⟨30, 1⟩, ⟨10, 1⟩⟩

/-- The position row for `posBondA`. -/
def rowBondA : PositionRow :=
  ⟨"BF1", some "BONDA", "bond", ⟨2, 1⟩, ⟨50, 1⟩, ⟨55, 1⟩, ⟨10, 1⟩, ⟨10, 1⟩⟩

/-- The position row for `posBondB`. -/
def rowBondB : PositionRow :=
  ⟨"BF2", some "BONDB", "bond", ⟨1, 1⟩, ⟨40, 1⟩, ⟨41, 1⟩, ⟨5, 1⟩, ⟨5, 2⟩⟩

/-- The full position frame under `envBonds`. -/
def dfBondsW : Frame PositionRow := ⟨POSITION_COLUMNS, [rowShareC, rowBondA, rowBondB]⟩

/-- The surviving enriched bond row under `envBonds`. -/
def bondRowA : BondRow := ⟨some "BONDA", "Bond A", ⟨2, 1⟩, ⟨50, 1⟩, ⟨1000, 1⟩, ⟨10, 3⟩⟩

/-- The surviving enriched stock row under `envBonds`. -/
def stockRowC : StockRow :=
  ⟨some "SHARA", some "SHARA", ⟨3, 1⟩, ⟨100, 1⟩, ⟨300, 1⟩, ⟨600, 1⟩, ⟨200, 1⟩⟩

/-- A broker whose single bond position always fails enrichment. -/
def envBondFail : Env :=
  { envBonds with getPortfolio := fun _ => ⟨⟨"rub", 100, 0⟩, [posBondB]⟩ }

/-- A broker whose depth-1 order book is completely empty. -/
def envEmptyBook : Env := { envBase with orderBook := fun _ => ⟨none, [], []⟩ }

/-- A broker returning, for any requested span, two candles at its endpoints
and a duplicate, out of order. -/
def envCandles : Env :=
  { envBase with
    getCandles := fun _ a b _ =>
      [⟨b, ⟨1, 0⟩, ⟨1, 0⟩, ⟨1, 0⟩, ⟨1, 0⟩, 1⟩,
       ⟨a, ⟨1, 0⟩, ⟨1, 0⟩, ⟨1, 0⟩, ⟨1, 0⟩, 2⟩,
       ⟨b, ⟨1, 0⟩, ⟨1, 0⟩, ⟨1, 0⟩, ⟨1, 0⟩, 3⟩] }

/-- For a supported interval, every candle request issued by `get_history`
spans at most the interval's cap, and an `ok` result has strictly increasing
timestamps. -/
theorem get_history_props (env : Env) (t : String) (lo hi : Int) (iv : String)
    (ti : CandleInterval) (step : Int)
    (hti : INTERVAL_MAP iv = some ti) (hstep : MAX_RANGE iv = some step) :
    (∀ c ∈ (get_history env t lo hi iv).trace, candleSpanOk step c = true) ∧
    ∀ df, (get_history env t lo hi iv).result = .ok df →
      df.rows.Pairwise fun a b => a.time < b.time := by
  have hsh : py_lower "share" = "share" := rfl
  cases hf : (get_figi env t "share").result with
  | error e =>
    have hh : get_history env t lo hi iv =
        ⟨.error e, (get_figi env t "share").trace⟩ := by
      simp only [get_history, Res.bind_def]
      exact Res.bind_of_error _ _ _ hf
    rw [hh]
    constructor
    · intro c hc
      rw [get_figi_share_eq env t "share" hsh] at hc
      rcases List.mem_singleton.mp hc with rfl
      rfl
    · intro df hdf
      exact absurd hdf (by simp)
  | ok figi =>
    rw [get_history_eq env t lo hi iv figi ti step hf hti hstep]
    constructor
    · intro c hc
      rcases List.mem_append.mp hc with hc | hc
      · rw [get_figi_share_eq env t "share" hsh] at hc
        rcases List.mem_singleton.mp hc with rfl
        rfl
      · obtain ⟨p, hp, rfl⟩ := List.mem_map.mp hc
        have hs := historyChunks_span step _ lo hi p hp
        simpa [candleSpanOk] using hs
    · intro df hdf
      by_cases he : ((historyChunks step (hi - lo).toNat lo hi).map
          (fun p => (env.getCandles figi p.1 p.2 ti).map candleToRow)).flatten.isEmpty
      · simp only [he, if_pos] at hdf
        cases Except.ok.inj hdf
        exact List.Pairwise.nil
      · simp only [he, Bool.false_eq_true, if_false] at hdf
        cases Except.ok.inj hdf
        exact insertionSort_dedup_pairwise_lt (fun r : CandleRow => r.time) _

/-- C1, as stated, is false: `buy` (and `sell`) resolve the account and the
ticker through the broker before `_place_order` validates the quantity, so a
call with `quantity ≤ 0` has already issued the account-listing, portfolio
and share-listing network calls when the validation error is raised. -/
theorem C1_counterexample :
    (buy envBase "Main" "SBER" (-1) none).result =
      .error (.valueError "Количество должно быть положительным.") ∧
    (buy envBase "Main" "SBER" (-1) none).trace =
      [.getAccounts, .getPortfolio "acc-1", .getShares] ∧
    (buy envBase "Main" "SBER" (-1) none).trace ≠ [] := by decide

/-- C1 (amended): for `buy` and `sell`, once the account and ticker resolve,
a quantity `≤ 0` fails validation with the quantity error and no order is
ever submitted to the broker (the resolution calls themselves may already
have happened); a given price `≤ 0` fails validation with the price error and
no order is submitted; with the price omitted exactly one market order (with
no price) is submitted; with a positive price exactly one limit order at
exactly that price is submitted. -/
theorem C1_order_validation_and_type (env : Env) (account ticker : String)
    (quantity : Int) (price : Option Q) (aid figi : String)
    (hacc : (get_account_id env account).result = .ok aid)
    (hfig : (get_figi env ticker "share").result = .ok figi) :
    (quantity ≤ 0 →
      (buy env account ticker quantity price).result =
        .error (.valueError "Количество должно быть положительным.") ∧
      postedOrderSpecs (buy env account ticker quantity price).trace = [] ∧
      (sell env account ticker quantity price).result =
        .error (.valueError "Количество должно быть положительным.") ∧
      postedOrderSpecs (sell env account ticker quantity price).trace = []) ∧
    (∀ p, price = some p → qle p qzero = true → 0 < quantity →
      (buy env account ticker quantity price).result =
        .error (.valueError "Цена должна быть положительной") ∧
      postedOrderSpecs (buy env account ticker quantity price).trace = [] ∧
      (sell env account ticker quantity price).result =
        .error (.valueError "Цена должна быть положительной") ∧
      postedOrderSpecs (sell env account ticker quantity price).trace = []) ∧
    (price = none → 0 < quantity →
      (buy env account ticker quantity price).result = .ok env.postOrderId ∧
      postedOrderSpecs (buy env account ticker quantity price).trace =
        [(.buy, .market, none)] ∧
      (sell env account ticker quantity price).result = .ok env.postOrderId ∧
      postedOrderSpecs (sell env account ticker quantity price).trace =
        [(.sell, .market, none)]) ∧
    (∀ p, price = some p → qle p qzero = false → 0 < quantity →
      (buy env account ticker quantity price).result = .ok env.postOrderId ∧
      postedOrderSpecs (buy env account ticker quantity price).trace =
        [(.buy, .limit, some p)] ∧
      (sell env account ticker quantity price).result = .ok env.postOrderId ∧
      postedOrderSpecs (sell env account ticker quantity price).trace =
        [(.sell, .limit, some p)]) := by
  refine ⟨?_, ?_, ?_, ?_⟩
  · intro hq
    have hpob : place_order env aid figi quantity .buy price =
        ⟨.error (.valueError "Количество должно быть положительным."), []⟩ := by
      simp [place_order, if_pos hq]
    have hpos : place_order env aid figi quantity .sell price =
        ⟨.error (.valueError "Количество должно быть положительным."), []⟩ := by
      simp [place_order, if_pos hq]
    rw [buy_eq env account ticker quantity price aid figi hacc hfig,
      sell_eq env account ticker quantity price aid figi hacc hfig, hpob, hpos]
    simp [Except.map, postedOrderSpecs_append, postedOrderSpecs_get_account_id,
      postedOrderSpecs_get_figi_share, postedOrderSpecs_cons_post,
      postedOrderSpecs_nil]
  · intro p hp hple hq
    subst hp
    have hnq : ¬quantity ≤ 0 := not_le.mpr hq
    have hpob : place_order env aid figi quantity .buy (some p) =
        ⟨.error (.valueError "Цена должна быть положительной"), []⟩ := by
      simp [place_order, if_neg hnq, hple]
    have hpos : place_order env aid figi quantity .sell (some p) =
        ⟨.error (.valueError "Цена должна быть положительной"), []⟩ := by
      simp [place_order, if_neg hnq, hple]
    rw [buy_eq env account ticker quantity (some p) aid figi hacc hfig,
      sell_eq env account ticker quantity (some p) aid figi hacc hfig, hpob, hpos]
    simp [Except.map, postedOrderSpecs_append, postedOrderSpecs_get_account_id,
      postedOrderSpecs_get_figi_share, postedOrderSpecs_cons_post,
      postedOrderSpecs_nil]
  · intro hp hq
    subst hp
    have hnq : ¬quantity ≤ 0 := not_le.mpr hq
    have hpob : place_order env aid figi quantity .buy none =
        ⟨.ok ⟨env.postOrderId⟩,
         [.postOrder figi quantity aid .buy .market none]⟩ := by
      simp [place_order, if_neg hnq]
    have hpos : place_order env aid figi quantity .sell none =
        ⟨.ok ⟨env.postOrderId⟩,
         [.postOrder figi quantity aid .sell .market none]⟩ := by
      simp [place_order, if_neg hnq]
    rw [buy_eq env account ticker quantity none aid figi hacc hfig,
      sell_eq env account ticker quantity none aid figi hacc hfig, hpob, hpos]
    simp [Except.map, postedOrderSpecs_append, postedOrderSpecs_get_account_id,
      postedOrderSpecs_get_figi_share, postedOrderSpecs_cons_post,
      postedOrderSpecs_nil]
  · intro p hp hple hq
    subst hp
    have hnq : ¬quantity ≤ 0 := not_le.mpr hq
    have hnple : ¬qle p qzero = true := by simp [hple]
    have hpob : place_order env aid figi quantity .buy (some p) =
        ⟨.ok ⟨env.postOrderId⟩,
         [.postOrder figi quantity aid .buy .limit (some p)]⟩ := by
      simp [place_order, if_neg hnq, hple]
    have hpos : place_order env aid figi quantity .sell (some p) =
        ⟨.ok ⟨env.postOrderId⟩,
         [.postOrder figi quantity aid .sell .limit (some p)]⟩ := by
      simp [place_order, if_neg hnq, hple]
    rw [buy_eq env account ticker quantity (some p) aid figi hacc hfig,
      sell_eq env account ticker quantity (some p) aid figi hacc hfig, hpob, hpos]
    simp [Except.map, postedOrderSpecs_append, postedOrderSpecs_get_account_id,
      postedOrderSpecs_get_figi_share, postedOrderSpecs_cons_post,
      postedOrderSpecs_nil]

/-- C1 witness: under the one-account, one-share broker, a limit buy of two
lots at 306 resolves, validates, and submits exactly one limit order at 306. -/
theorem C1_witness :
    (get_account_id envBase "Main").result = .ok "acc-1" ∧
    (get_figi envBase "SBER" "share").result = .ok "BBG004730N88" ∧
    qle ⟨306, 1⟩ qzero = false ∧ (0 : Int) < 2 ∧
    (buy envBase "Main" "SBER" 2 (some ⟨306, 1⟩)).result = .ok "order-1" ∧
    postedOrderSpecs (buy envBase "Main" "SBER" 2 (some ⟨306, 1⟩)).trace =
      [(.buy, .limit, some ⟨306, 1⟩)] := by
  have h := C1_order_validation_and_type envBase "Main" "SBER" 2 (some ⟨306, 1⟩)
    "acc-1" "BBG004730N88" (by decide) (by decide)
  have h4 := h.2.2.2 ⟨306, 1⟩ rfl (by decide) (by decide)
  exact ⟨by decide, by decide, by decide, by decide, h4.1, h4.2.1⟩

/-- C2: for every supported interval, the per-interval request caps are
exactly 1, 7, 30, 30, 365, 5×365 and 10×365 days; every candle request that
`history` issues spans at most the cap of the requested interval; and any
table it returns has pairwise-distinct, strictly increasing timestamps. -/
theorem C2_history_chunking_and_order (env : Env) (t : String) (lo hi : Int)
    (iv : String) (hiv : iv ∈ ["1m", "5m", "15m", "1h", "1d", "1w", "1mo"])
    (_hlt : lo < hi) :
    (MAX_RANGE "1m" = some (1 * DAY) ∧ MAX_RANGE "5m" = some (7 * DAY) ∧
     MAX_RANGE "15m" = some (30 * DAY) ∧ MAX_RANGE "1h" = some (30 * DAY) ∧
     MAX_RANGE "1d" = some (365 * DAY) ∧ MAX_RANGE "1w" = some (5 * 365 * DAY) ∧
     MAX_RANGE "1mo" = some (10 * 365 * DAY)) ∧
    (∀ w, MAX_RANGE iv = some w →
      ∀ c ∈ (get_history env t lo hi iv).trace, candleSpanOk w c = true) ∧
    ∀ df, (get_history env t lo hi iv).result = .ok df →
      df.rows.Pairwise fun a b => a.time < b.time := by
  refine ⟨by decide, ?_, ?_⟩
  · intro w hw
    simp only [List.mem_cons, List.not_mem_nil, or_false] at hiv
    rcases hiv with rfl | rfl | rfl | rfl | rfl | rfl | rfl
    · exact (get_history_props env t lo hi "1m" .min1 w (by decide) hw).1
    · exact (get_history_props env t lo hi "5m" .min5 w (by decide) hw).1
    · exact (get_history_props env t lo hi "15m" .min15 w (by decide) hw).1
    · exact (get_history_props env t lo hi "1h" .hour w (by decide) hw).1
    · exact (get_history_props env t lo hi "1d" .day w (by decide) hw).1
    · exact (get_history_props env t lo hi "1w" .week w (by decide) hw).1
    · exact (get_history_props env t lo hi "1mo" .month w (by decide) hw).1
  · simp only [List.mem_cons, List.not_mem_nil, or_false] at hiv
    rcases hiv with rfl | rfl | rfl | rfl | rfl | rfl | rfl
    · exact (get_history_props env t lo hi "1m" .min1 DAY (by decide) (by decide)).2
    · exact (get_history_props env t lo hi "5m" .min5 (7 * DAY) (by decide)
        (by decide)).2
    · exact (get_history_props env t lo hi "15m" .min15 (30 * DAY) (by decide)
        (by decide)).2
    · exact (get_history_props env t lo hi "1h" .hour (30 * DAY) (by decide)
        (by decide)).2
    · exact (get_history_props env t lo hi "1d" .day (365 * DAY) (by decide)
        (by decide)).2
    · exact (get_history_props env t lo hi "1w" .week (365 * 5 * DAY) (by decide)
        (by decide)).2
    · exact (get_history_props env t lo hi "1mo" .month (365 * 10 * DAY) (by decide)
        (by decide)).2

/-- C2 witness: one day of one-minute history over a broker that answers each
candle request with out-of-order, duplicated candles; the request issued
spans at most one day and the resulting table is strictly increasing in time
with the duplicate dropped. -/
theorem C2_witness :
    ("1m" ∈ ["1m", "5m", "15m", "1h", "1d", "1w", "1mo"] ∧ (0 : Int) < 3) ∧
    (∀ c ∈ (get_history envCandles "SBER" 0 3 "1m").trace,
      candleSpanOk DAY c = true) ∧
    ((get_history envCandles "SBER" 0 3 "1m").result =
      .ok ⟨HISTORY_COLUMNS,
        [⟨0, ⟨1, 1⟩, ⟨1, 1⟩, ⟨1, 1⟩, ⟨1, 1⟩, 2⟩,
         ⟨3, ⟨1, 1⟩, ⟨1, 1⟩, ⟨1, 1⟩, ⟨1, 1⟩, 1⟩]⟩) ∧
    ([(⟨0, ⟨1, 1⟩, ⟨1, 1⟩, ⟨1, 1⟩, ⟨1, 1⟩, 2⟩ : CandleRow),
      ⟨3, ⟨1, 1⟩, ⟨1, 1⟩, ⟨1, 1⟩, ⟨1, 1⟩, 1⟩].Pairwise fun a b => a.time < b.time) := by
  have h := C2_history_chunking_and_order envCandles "SBER" 0 3 "1m"
    (by decide) (by decide)
  refine ⟨⟨by decide, by decide⟩, h.2.1 DAY (by decide), by decide, ?_⟩
  have hdf := h.2.2 ⟨HISTORY_COLUMNS,
    [⟨0, ⟨1, 1⟩, ⟨1, 1⟩, ⟨1, 1⟩, ⟨1, 1⟩, 2⟩,
     ⟨3, ⟨1, 1⟩, ⟨1, 1⟩, ⟨1, 1⟩, ⟨1, 1⟩, 1⟩]⟩ (by decide)
  exact hdf

/-- C3, as stated, is false: in this source the short variants submit the BUY
stop-order direction while the long variants submit SELL, so a short stop
order is not behaviorally identical to the corresponding long one. -/
theorem C3_counterexample :
    stopDirections (short_stop_loss envBase "Main" "SBER" ⟨100, 1⟩ ⟨99, 1⟩ 1).trace =
      [.buy] ∧
    stopDirections (long_stop_loss envBase "Main" "SBER" ⟨100, 1⟩ ⟨99, 1⟩ 1).trace =
      [.sell] ∧
    stopDirections (short_take_profit envBase "Main" "SBER" ⟨100, 1⟩ ⟨99, 1⟩ 1).trace =
      [.buy] ∧
    stopDirections (long_take_profit envBase "Main" "SBER" ⟨100, 1⟩ ⟨99, 1⟩ 1).trace =
      [.sell] ∧
    short_stop_loss envBase "Main" "SBER" ⟨100, 1⟩ ⟨99, 1⟩ 1 ≠
      long_stop_loss envBase "Main" "SBER" ⟨100, 1⟩ ⟨99, 1⟩ 1 ∧
    short_take_profit envBase "Main" "SBER" ⟨100, 1⟩ ⟨99, 1⟩ 1 ≠
      long_take_profit envBase "Main" "SBER" ⟨100, 1⟩ ⟨99, 1⟩ 1 := by decide

/-- C3 (amended): once the account and ticker resolve, each of the four
convenience wrappers submits exactly one good-till-cancel stop order with the
same account, instrument, quantity and prices; the long variants submit the
SELL direction and the short variants submit the BUY direction (inverting
buy/sell), with stop-loss and take-profit kinds as named. -/
theorem C3_stop_order_directions (env : Env) (account ticker : String)
    (sp ep : Q) (q : Int) (aid figi : String)
    (hacc : (get_account_id env account).result = .ok aid)
    (hfig : (get_figi env ticker "share").result = .ok figi) :
    long_stop_loss env account ticker sp ep q =
      ⟨.ok env.postStopOrderId,
       (get_account_id env account).trace ++ (get_figi env ticker "share").trace ++
         [.postStopOrder aid figi q sp ep .sell .goodTillCancel .stopLoss]⟩ ∧
    long_take_profit env account ticker sp ep q =
      ⟨.ok env.postStopOrderId,
       (get_account_id env account).trace ++ (get_figi env ticker "share").trace ++
         [.postStopOrder aid figi q sp ep .sell .goodTillCancel .takeProfit]⟩ ∧
    short_stop_loss env account ticker sp ep q =
      ⟨.ok env.postStopOrderId,
       (get_account_id env account).trace ++ (get_figi env ticker "share").trace ++
         [.postStopOrder aid figi q sp ep .buy .goodTillCancel .stopLoss]⟩ ∧
    short_take_profit env account ticker sp ep q =
      ⟨.ok env.postStopOrderId,
       (get_account_id env account).trace ++ (get_figi env ticker "share").trace ++
         [.postStopOrder aid figi q sp ep .buy .goodTillCancel .takeProfit]⟩ ∧
    StopOrderDirection.buy ≠ StopOrderDirection.sell :=
  ⟨long_stop_loss_eq env account ticker sp ep q aid figi hacc hfig,
   long_take_profit_eq env account ticker sp ep q aid figi hacc hfig,
   short_stop_loss_eq env account ticker sp ep q aid figi hacc hfig,
   short_take_profit_eq env account ticker sp ep q aid figi hacc hfig,
   by decide⟩

/-- C3 witness: under the one-account, one-share broker the four wrappers
submit exactly the stop orders described in `C3_stop_order_directions`. -/
theorem C3_witness :
    short_stop_loss envBase "Main" "SBER" ⟨100, 1⟩ ⟨99, 1⟩ 1 =
      ⟨.ok "stop-1",
       [.getAccounts, .getPortfolio "acc-1", .getShares,
        .postStopOrder "acc-1" "BBG004730N88" 1 ⟨100, 1⟩ ⟨99, 1⟩ .buy
          .goodTillCancel .stopLoss]⟩ ∧
    long_stop_loss envBase "Main" "SBER" ⟨100, 1⟩ ⟨99, 1⟩ 1 =
      ⟨.ok "stop-1",
       [.getAccounts, .getPortfolio "acc-1", .getShares,
        .postStopOrder "acc-1" "BBG004730N88" 1 ⟨100, 1⟩ ⟨99, 1⟩ .sell
          .goodTillCancel .stopLoss]⟩ := by
  have h := C3_stop_order_directions envBase "Main" "SBER" ⟨100, 1⟩ ⟨99, 1⟩ 1
    "acc-1" "BBG004730N88" (by decide) (by decide)
  exact ⟨by rw [h.2.2.1]; decide, by rw [h.1]; decide⟩

/-- C4, as stated, is false at the all-rows-fail case: with one bond position
whose enrichment raises, the final `pd.DataFrame([]).sort_values(...)` is
applied to a column-less empty frame and the whole listing aborts with a
`KeyError` instead of returning a table. -/
theorem C4_counterexample :
    (bonds envBondFail "Main").result = .error (.keyError "monthly_coupon") := by
  decide

/-- C4 (amended): per-row enrichment failures in the bulk bond and stock
reports are caught and the row is dropped, and the report returns a table
containing exactly the rows whose enrichment succeeded — provided at least
one row survives; when there are positions of the requested kind but every
row's enrichment fails, the report instead aborts with a `KeyError` from
sorting a column-less empty frame. -/
theorem C4_bulk_report_partial_failure (env : Env) (account : String)
    (df : Frame PositionRow)
    (hpos : (get_positions env account).result = .ok df) (hne : df.rows ≠ []) :
    (∀ lst, (bondEnrichLoop env
        (df.rows.filter fun r => py_lower r.instrumentType == "bond")).result =
          .ok lst →
      ((df.rows.filter fun r => py_lower r.instrumentType == "bond") ≠ [] →
        lst ≠ [] →
        ∃ g, (bonds env account).result = .ok g ∧ g.rows.Perm lst ∧
          ∀ b ∈ lst, b ∈ g.rows) ∧
      ((df.rows.filter fun r => py_lower r.instrumentType == "bond") ≠ [] →
        lst = [] →
        (bonds env account).result = .error (.keyError "monthly_coupon"))) ∧
    ∀ lst, (stockEnrichLoop env
        (df.rows.filter fun r => py_lower r.instrumentType == "share")).result =
          .ok lst →
      ((df.rows.filter fun r => py_lower r.instrumentType == "share") ≠ [] →
        lst ≠ [] →
        ∃ g, (stocks env account).result = .ok g ∧ g.rows.Perm lst ∧
          ∀ b ∈ lst, b ∈ g.rows) ∧
      ((df.rows.filter fun r => py_lower r.instrumentType == "share") ≠ [] →
        lst = [] →
        (stocks env account).result = .error (.keyError "unrealized_profit")) := by
  constructor
  · intro lst hlst
    rw [bondEnrichLoop_eq] at hlst
    have hl := (Except.ok.inj hlst).symm
    subst hl
    constructor
    · intro hbp hlne
      rw [bonds_eq env account df hpos hne, if_neg hbp, if_neg hlne]
      refine ⟨_, rfl, List.perm_insertionSort _ _, ?_⟩
      intro b hb
      exact ((List.perm_insertionSort _ _).mem_iff).mpr hb
    · intro hbp hl0
      rw [bonds_eq env account df hpos hne, if_neg hbp, if_pos hl0]
  · intro lst hlst
    rw [stockEnrichLoop_eq] at hlst
    have hl := (Except.ok.inj hlst).symm
    subst hl
    constructor
    · intro hbp hlne
      rw [stocks_eq env account df hpos hne, if_neg hbp, if_neg hlne]
      refine ⟨_, rfl, List.perm_insertionSort _ _, ?_⟩
      intro b hb
      exact ((List.perm_insertionSort _ _).mem_iff).mpr hb
    · intro hbp hl0
      rw [stocks_eq env account df hpos hne, if_neg hbp, if_pos hl0]

/-- C4 witness: under `envBonds` one of the two bond rows and the single
stock row survive enrichment; both reports return exactly the surviving
rows. -/
theorem C4_witness :
    (get_positions envBonds "Main").result = .ok dfBondsW ∧
    dfBondsW.rows ≠ [] ∧
    (∃ g, (bonds envBonds "Main").result = .ok g ∧ g.rows.Perm [bondRowA] ∧
      ∀ b ∈ [bondRowA], b ∈ g.rows) ∧
    ∃ g, (stocks envBonds "Main").result = .ok g ∧ g.rows.Perm [stockRowC] ∧
      ∀ b ∈ [stockRowC], b ∈ g.rows := by
  have h := C4_bulk_report_partial_failure envBonds "Main" dfBondsW
    (by decide) (by decide)
  refine ⟨by decide, by decide, ?_, ?_⟩
  · exact (h.1 [bondRowA] (by decide)).1 (by decide) (by decide)
  · exact (h.2 [stockRowC] (by decide)).1 (by decide) (by decide)

/-- C5, as stated, is false for the bond kind: the operation succeeds and
returns the FIGI of a search result whose own ticker does not equal the
uppercased input, instead of failing with the not-found error. -/
theorem C5_counterexample :
    (get_figi envC5 "aaa" "bond").result = .ok "F1" ∧
    (∀ i ∈ envC5.findInstrument (py_upper "aaa"), i.ticker ≠ py_upper "aaa") ∧
    (get_figi envC5 "aaa" "bond").result ≠
      .error (.valueError (figiNotFoundMsg (py_upper "aaa") "bond")) := by decide

/-- C5 (amended): the resolver uppercases the ticker; for the share kind it
scans the base share listing for the first instrument whose ticker exactly
equals the uppercased input and fails with a not-found error naming the
ticker otherwise; for the bond kind it instead free-text-searches the
uppercased ticker and returns the FIGI of the first result whose kind is
bond, without comparing that result's ticker, failing with the not-found
error only when no search result has the bond kind. -/
theorem C5_get_figi_resolution (env : Env) (ticker instrument_type : String) :
    (py_lower instrument_type = "share" →
      (get_figi env ticker instrument_type).result =
        match env.shares.find? (fun i => i.ticker == py_upper ticker) with
        | some inst => .ok inst.figi
        | none =>
          .error (.valueError (figiNotFoundMsg (py_upper ticker) instrument_type))) ∧
    (py_lower instrument_type = "bond" →
      (get_figi env ticker instrument_type).result =
        match (env.findInstrument (py_upper ticker)).find?
            (fun i => i.instrumentKind == InstrumentType.bond) with
        | some inst => .ok inst.figi
        | none =>
          .error (.valueError (figiNotFoundMsg (py_upper ticker) instrument_type))) := by
  constructor
  · intro h
    rw [get_figi_share_eq env ticker instrument_type h]
  · intro h
    have hns : py_lower instrument_type ≠ "share" := by
      rw [h]; decide
    rw [get_figi_bond_eq env ticker instrument_type hns h]

/-- C5 witness: `sber` resolves to the SBER share FIGI by exact (uppercased)
ticker match, while `aaa` with kind `Bond` resolves to the first bond-kind
search hit regardless of its ticker. -/
theorem C5_witness :
    (get_figi envBase "sber" "share").result = .ok "BBG004730N88" ∧
    (get_figi envC5 "aaa" "Bond").result = .ok "F1" := by
  have h1 := (C5_get_figi_resolution envBase "sber" "share").1 (by decide)
  have h2 := (C5_get_figi_resolution envC5 "aaa" "Bond").2 (by decide)
  constructor
  · rw [h1]; decide
  · rw [h2]; decide

/-- C6: `history` with `from == to` issues no request and returns the typed
empty table with exactly the columns time/open/high/low/close/volume, but the
operations history over a range containing no operations does not return an
empty table with its fixed column set: `pd.DataFrame([])` has no columns and
`sort_values("time")` raises `KeyError`, as evaluated here at the failing
input (an account whose operations list is empty). -/
theorem C6_empty_result_schemas :
    (get_history envBase "SBER" 0 0 "1d").result =
      .ok ⟨["time", "open", "high", "low", "close", "volume"], []⟩ ∧
    (get_history envBase "SBER" 0 0 "1d").trace = [.getShares] ∧
    envBase.getOperations "acc-1" 0 DAY = [] ∧
    (get_operations_history envBase "Main" 0 DAY).result =
      .error (.keyError "time") := by decide

/-- C7: the current price is the order book's last traded price when present;
otherwise the midpoint when both best bid and best ask exist; otherwise the
single available side; otherwise a `ValueError` naming the ticker. -/
theorem C7_current_price_preference (env : Env) (ticker figi : String)
    (hfig : (get_figi env ticker "share").result = .ok figi) :
    (∀ lp, (env.orderBook figi).lastPrice = some lp →
      (get_current_price env ticker).result = .ok lp.toQ) ∧
    ((env.orderBook figi).lastPrice = none →
      ∀ b bs a as_, (env.orderBook figi).bids = b :: bs →
        (env.orderBook figi).asks = a :: as_ →
        (get_current_price env ticker).result =
          .ok (qdiv (qadd b.toQ a.toQ) (qint 2))) ∧
    ((env.orderBook figi).lastPrice = none →
      ∀ b bs, (env.orderBook figi).bids = b :: bs →
        (env.orderBook figi).asks = [] →
        (get_current_price env ticker).result = .ok b.toQ) ∧
    ((env.orderBook figi).lastPrice = none →
      (env.orderBook figi).bids = [] →
      ∀ a as_, (env.orderBook figi).asks = a :: as_ →
        (get_current_price env ticker).result = .ok a.toQ) ∧
    ((env.orderBook figi).lastPrice = none →
      (env.orderBook figi).bids = [] → (env.orderBook figi).asks = [] →
      (get_current_price env ticker).result =
        .error (.valueError ("Невозможно получить текущую цену для " ++ ticker))) := by
  refine ⟨?_, ?_, ?_, ?_, ?_⟩
  · intro lp hlp
    simp [get_current_price, Res.bind_def, Res.bind_of_ok _ _ _ hfig,
      brokerCall_def, Res.bind_mk_ok', hlp]
  · intro hnone b bs a as_ hb ha
    simp [get_current_price, Res.bind_def, Res.bind_of_ok _ _ _ hfig,
      brokerCall_def, Res.bind_mk_ok', hnone, hb, ha]
  · intro hnone b bs hb ha
    simp [get_current_price, Res.bind_def, Res.bind_of_ok _ _ _ hfig,
      brokerCall_def, Res.bind_mk_ok', hnone, hb, ha]
  · intro hnone hb a as_ ha
    simp [get_current_price, Res.bind_def, Res.bind_of_ok _ _ _ hfig,
      brokerCall_def, Res.bind_mk_ok', hnone, hb, ha]
  · intro hnone hb ha
    simp [get_current_price, Res.bind_def, Res.bind_of_ok _ _ _ hfig,
      brokerCall_def, Res.bind_mk_ok', hnone, hb, ha]

/-- C7 witness: with a last traded price of 300 the current price is 300;
with a completely empty depth-1 book the operation fails naming the ticker. -/
theorem C7_witness :
    (get_figi envBase "SBER" "share").result = .ok "BBG004730N88" ∧
    (envBase.orderBook "BBG004730N88").lastPrice = some ⟨300, 0⟩ ∧
    (get_current_price envBase "SBER").result = .ok (Quotation.mk 300 0).toQ ∧
    (get_current_price envEmptyBook "SBER").result =
      .error (.valueError ("Невозможно получить текущую цену для " ++ "SBER")) := by
  have h1 := C7_current_price_preference envBase "SBER" "BBG004730N88" (by decide)
  have h2 := C7_current_price_preference envEmptyBook "SBER" "BBG004730N88"
    (by decide)
  exact ⟨by decide, rfl, h1.1 ⟨300, 0⟩ rfl, h2.2.2.2.2 rfl rfl rfl⟩

/-- C8, as stated, is false when the broker lists no accounts at all: the
listing frame then has no columns, and selecting `accounts["NAME"]` raises a
`KeyError` instead of the documented not-found error naming the query. -/
theorem C8_counterexample :
    (get_account_id envNoAccounts "X").result = .error (.keyError "NAME") ∧
    (get_account_id envNoAccounts "X").result ≠
      .error (.valueError (accountNotFoundMsg "X")) := by decide

/-- C8 (amended): provided at least one account is listed, account resolution
returns the ID of the first listed account whose name exactly equals the
query (case-sensitively), and fails with a `ValueError` naming the query when
no listed account matches; with an empty account listing it raises a
`KeyError` on the missing NAME column instead. -/
theorem C8_resolve_account (env : Env) (name : String)
    (hne : env.accounts ≠ []) :
    (∀ a, (env.accounts.map (accountRow env)).find? (fun r => r.NAME == name) =
        some a →
      (get_account_id env name).result = .ok a.ID) ∧
    ((env.accounts.map (accountRow env)).find? (fun r => r.NAME == name) = none →
      (get_account_id env name).result =
        .error (.valueError (accountNotFoundMsg name))) := by
  have hie : (env.accounts.map (accountRow env)).isEmpty = false := by
    cases henv : env.accounts with
    | nil => exact absurd henv hne
    | cons a l => rfl
  have hh := head?_filter_eq_find? (fun r => r.NAME == name)
    (env.accounts.map (accountRow env))
  constructor
  · intro a ha
    rw [ha] at hh
    rw [get_account_id_eq]
    cases hm : (env.accounts.map (accountRow env)).filter
        (fun r => r.NAME == name) with
    | nil => rw [hm] at hh; exact absurd hh (by simp)
    | cons x xs =>
      rw [hm] at hh
      have hxa : x = a := by simpa using hh
      subst hxa
      simp [hie, hm]
  · intro ha
    rw [ha] at hh
    rw [get_account_id_eq]
    cases hm : (env.accounts.map (accountRow env)).filter
        (fun r => r.NAME == name) with
    | nil => simp [hie, hm]
    | cons x xs => rw [hm] at hh; exact absurd hh (by simp)

/-- C8 witness: `Main` resolves to its ID and `Ghost` fails with the named
not-found error. -/
theorem C8_witness :
    envBase.accounts ≠ [] ∧
    (get_account_id envBase "Main").result = .ok "acc-1" ∧
    (get_account_id envBase "Ghost").result =
      .error (.valueError (accountNotFoundMsg "Ghost")) := by
  have h1 := C8_resolve_account envBase "Main" (by decide)
  have h2 := C8_resolve_account envBase "Ghost" (by decide)
  refine ⟨by decide, ?_, h2.2 (by decide)⟩
  have := h1.1 ⟨"acc-1", "Main", none, ⟨100, 1⟩⟩ (by decide)
  exact this

/-- C9: currency conversion with equal (case-normalized) currencies returns
the given amount, or 1 with no amount, issuing no network call; with distinct
currencies whose ordered pair is not wired in the fixed FX table it fails
with an error naming the pair, issuing no network call; in particular
RUB→RUB of 100 is exactly 100 with no network call. -/
theorem C9_convert_currency_wiring (env : Env) (from_currency to_currency : String)
    (amount : Option Q) :
    (py_upper from_currency = py_upper to_currency →
      convert_currency env from_currency to_currency amount =
        ⟨.ok (amount.getD (qint 1)), []⟩) ∧
    (py_upper from_currency ≠ py_upper to_currency →
      FX_TICKERS (py_upper from_currency) (py_upper to_currency) = none →
      convert_currency env from_currency to_currency amount =
        ⟨.error (.valueError
          (fxPairMsg (py_upper from_currency) (py_upper to_currency))), []⟩) ∧
    convert_currency env "RUB" "RUB" (some (qint 100)) = ⟨.ok (qint 100), []⟩ := by
  refine ⟨?_, ?_, rfl⟩
  · intro h
    simp only [convert_currency, if_pos h]
    cases amount <;> rfl
  · intro h hfx
    simp only [convert_currency, if_neg h, hfx]
    rfl

/-- C9 witness: `usd`→`USD` of 5 is the identity with no network call, and
the unwired pair USD/JPY fails naming the pair with no network call. -/
theorem C9_witness :
    convert_currency envBase "usd" "USD" (some (qint 5)) = ⟨.ok (qint 5), []⟩ ∧
    convert_currency envBase "USD" "JPY" none =
      ⟨.error (.valueError (fxPairMsg "USD" "JPY")), []⟩ := by
  have h1 := (C9_convert_currency_wiring envBase "usd" "USD" (some (qint 5))).1
    (by decide)
  have h2 := (C9_convert_currency_wiring envBase "USD" "JPY" none).2.1
    (by decide) (by decide)
  exact ⟨h1, h2⟩

/-- C10: for any instrument type whose lowercasing is neither `share` nor
`bond`, neither branch assigns the local `inst`, and the `if not inst` line
raises `UnboundLocalError` (with no broker call and no not-found
`ValueError`). -/
theorem C10_get_figi_unbound_local (env : Env) (ticker instrument_type : String)
    (hns : py_lower instrument_type ≠ "share")
    (hnb : py_lower instrument_type ≠ "bond") :
    get_figi env ticker instrument_type =
      ⟨.error (.unboundLocalError "inst"), []⟩ :=
  get_figi_other_eq env ticker instrument_type hns hnb

/-- C10 witness: requesting kind `currency` raises `UnboundLocalError`. -/
theorem C10_witness :
    get_figi envBase "SBER" "currency" = ⟨.error (.unboundLocalError "inst"), []⟩ :=
  C10_get_figi_unbound_local envBase "SBER" "currency" (by decide) (by decide)
